import Mathlib

/-!
Verification development for the Sabanas ingestion server
(`app/jobs_service.py`, `app/domain/repository.py`, and the carrier
parser modules `app/services/telcel_v1.py`, `app/services/movistar.py`,
`app/services/att.py`, `app/services/altan.py`).

The Python code is shallowly embedded:

* the `sabanas.archivos` table is a list of `(id_sabanas, Archivo)` pairs
  and an SQL `UPDATE ... WHERE` is a map over that list updating every
  matching row, with `rowcount` the number of matched rows;
* the `sabanas.registros_telefonicos` table is a `List Registro`;
* each repository function that opens its own `with db.begin()` block is
  an atomic step: on failure it leaves its input table unchanged and the
  failure is an `Except.error`;
* Python `datetime` values are the structural `PyDateTime`;
* Python `float` cell values are modelled exactly as rationals: `pyFloat?`
  parses an optionally signed decimal literal with optional fraction and
  exponent (the special tokens `inf` / `nan` and underscore separators of
  Python's `float()` are outside the modelled input domain, and decimal
  values are kept exact rather than rounded to binary);
* the library routines `pandas.to_datetime` / `datetime.strptime` /
  `pandas.to_numeric` that feed the parsers are treated as inputs: a raw
  parser row carries their already-parsed result alongside the raw cells.
-/

/-! ## Python-style primitive helpers -/

/-- Digits of an ASCII decimal string, as a natural number
(`int(s)` for a string of digits; leading zeros allowed). -/
def digitsVal (s : String) : Nat :=
  s.data.foldl (fun n c => n * 10 + (c.toNat - 48)) 0

/-- Python `str.isdigit()` restricted to ASCII digits: non-empty and
every character a digit. -/
def pyIsdigit (s : String) : Bool :=
  !s.data.isEmpty && s.data.all Char.isDigit

/-- `re.sub(r"\D", "", s)`: keep only the digit characters. -/
def keepDigits (s : String) : String :=
  ⟨s.data.filter Char.isDigit⟩

/-- Python `str.strip()`: drop leading and trailing whitespace. -/
def pyStrip (s : String) : String :=
  ⟨((s.data.dropWhile Char.isWhitespace).reverse.dropWhile Char.isWhitespace).reverse⟩

/-- Python `str.lower()` (ASCII case mapping). -/
def pyLower (s : String) : String := ⟨s.data.map Char.toLower⟩

/-- Python `str.upper()` (ASCII case mapping). -/
def pyUpper (s : String) : String := ⟨s.data.map Char.toUpper⟩

/-- Python `str.replace(a, b)` for one-character patterns (the only kind
the embedded code uses). -/
def charReplace (a b : Char) (s : String) : String :=
  ⟨s.data.map (fun c => if c = a then b else c)⟩

/-- Python `str.split(c)` for a one-character separator. -/
def splitChAux (c : Char) : List Char → List Char → List String
  | [], acc => [⟨acc.reverse⟩]
  | x :: xs, acc =>
    if x = c then ⟨acc.reverse⟩ :: splitChAux c xs []
    else splitChAux c xs (x :: acc)

def pySplitCh (c : Char) (s : String) : List String := splitChAux c s.data []

/-- Python slice `s[:n]`. -/
def pyTake (n : Nat) (s : String) : String := ⟨s.data.take n⟩

/-- Python `str.startswith` / `str.endswith` / `in` tests. -/
def pyStartsWith (pre s : String) : Bool := pre.data.isPrefixOf s.data

def pyEndsWith (suf s : String) : Bool := suf.data.isSuffixOf s.data

def strContains (s : String) (c : Char) : Bool := s.data.contains c

/-- Sign parsing for a Python float literal: an optional leading
`+` or `-`. Returns the sign and the remaining characters. -/
def parseSign : List Char → Int × List Char
  | c :: cs => if c = '+' then (1, cs) else if c = '-' then (-1, cs) else (1, c :: cs)
  | [] => (1, [])

/-- Exponent tail of a Python float literal: `e`/`E`, optional sign,
one or more digits, end of string. -/
def parseExp : List Char → Option Int
  | c :: cs =>
    if c = 'e' || c = 'E' then
      let (es, cs2) := parseSign cs
      let ed := cs2.takeWhile Char.isDigit
      if ed.isEmpty || !(cs2.dropWhile Char.isDigit).isEmpty then none
      else some (es * (digitsVal ⟨ed⟩ : Int))
    else none
  | [] => some 0

/-- Exact model of a Python float value: a fraction over `Int`/`Nat`,
kept in lowest terms by every constructor, so that structural equality is
value equality and every operation reduces in the kernel. Decimal values
are kept exact rather than rounded to binary. -/
structure Frac where
  num : Int
  den : Nat
deriving DecidableEq, Repr, Inhabited

/-- Reduce a fraction to lowest terms (the denominator argument is
always positive at every use site). -/
def Frac.normalize (n : Int) (d : Nat) : Frac :=
  let g := Nat.gcd n.natAbs d
  if g = 0 then ⟨0, 1⟩ else ⟨Int.tdiv n (g : Int), d / g⟩

def Frac.ofNat (n : Nat) : Frac := ⟨(n : Int), 1⟩

def Frac.ofInt (n : Int) : Frac := ⟨n, 1⟩

/-- The value `m * 10 ^ k`. -/
def Frac.ofScaled (m : Int) (k : Int) : Frac :=
  if 0 ≤ k then ⟨m * (10 : Int) ^ k.toNat, 1⟩
  else Frac.normalize m ((10 : Nat) ^ (-k).toNat)

def Frac.add (a b : Frac) : Frac :=
  Frac.normalize (a.num * (b.den : Int) + b.num * (a.den : Int)) (a.den * b.den)

/-- Division by a positive integer constant. -/
def Frac.divN (a : Frac) (n : Nat) : Frac :=
  Frac.normalize a.num (a.den * n)

def Frac.neg (a : Frac) : Frac := ⟨-a.num, a.den⟩

def Frac.abs (a : Frac) : Frac := ⟨(a.num.natAbs : Int), a.den⟩

def Frac.mulInt (k : Int) (a : Frac) : Frac :=
  Frac.normalize (k * a.num) a.den

/-- Python `float(s)` on a pre-stripped string: optional sign, then
digits with an optional fractional part (at least one digit overall),
then an optional decimal exponent. `inf`, `nan` and underscore digit
separators are outside the modelled domain. -/
def pyFloat? (s : String) : Option Frac :=
  let (sg, cs) := parseSign s.data
  let ip := cs.takeWhile Char.isDigit
  let rest := cs.dropWhile Char.isDigit
  let core : Option (Nat × List Char × Nat) :=
    match rest with
    | c :: cs2 =>
      if c = '.' then
        let fp := cs2.takeWhile Char.isDigit
        let rest2 := cs2.dropWhile Char.isDigit
        if ip.isEmpty && fp.isEmpty then none
        else some (digitsVal ⟨ip⟩ * 10 ^ fp.length + digitsVal ⟨fp⟩, rest2, fp.length)
      else if ip.isEmpty then none else some (digitsVal ⟨ip⟩, rest, 0)
    | [] => if ip.isEmpty then none else some (digitsVal ⟨ip⟩, [], 0)
  match core with
  | none => none
  | some (mant, rest2, fdigits) =>
    match parseExp rest2 with
    | none => none
    | some e => some (Frac.ofScaled (sg * (mant : Int)) (e - (fdigits : Int)))

/-- Python `int(q)` for a float value: truncation toward zero. -/
def pyIntOfFloat (q : Frac) : Int :=
  Int.tdiv q.num (q.den : Int)

/-- Collapse every run of whitespace to a single space
(`re.sub(r"\s+", " ", s)`). -/
def collapseAux : List Char → Bool → List Char
  | [], _ => []
  | c :: cs, prev =>
    if c.isWhitespace then
      (if prev then collapseAux cs true else ' ' :: collapseAux cs true)
    else c :: collapseAux cs false

def collapseSpaces (s : String) : String :=
  ⟨collapseAux s.data false⟩

/-- Python truthiness of an optional string: `None` and `""` are falsy. -/
def optTruthy : Option String → Bool
  | none => false
  | some s => s ≠ ""

/-- Python `a or None` for an optional string. -/
def orNone : Option String → Option String
  | none => none
  | some s => if s = "" then none else some s

/-! ## Data model (`app/domain`) -/

/-- One row of `sabanas.archivos`, the columns selected by
`get_archivo_by_id`. Timestamps are abstract instants (`Nat`). -/
structure Archivo where
  ruta : String
  estado : String
  fecha_inicio : Option Nat
  fecha_termino : Option Nat
  compania : Option String
  id_numero_telefonico : Option Nat
  id_compania_telefonica : Option Nat
deriving DecidableEq, Repr, Inhabited

/-- The `sabanas.archivos` table: rows keyed by `id_sabanas`. -/
abbrev ArchStore := List (Nat × Archivo)

/-- Python `datetime.datetime` (the fields the code reads). -/
structure PyDateTime where
  year : Nat
  month : Nat
  day : Nat
  hour : Nat
  minute : Nat
  second : Nat
deriving DecidableEq, Repr, Inhabited

/-- One row of `sabanas.registros_telefonicos`, exactly the columns of
`insert_registros_telefonicos_bulk`. Float columns are exact rationals. -/
structure Registro where
  id_sabanas : Nat
  numero_a : Option String
  numero_b : Option String
  id_tipo_registro : Nat
  fecha_hora : Option PyDateTime
  duracion : Int
  latitud : Option String
  longitud : Option String
  azimuth : Option Frac
  latitud_decimal : Option Frac
  longitud_decimal : Option Frac
  altitud : Frac
  coordenada_objetivo : Option Bool
  imei : Option String
  telefono : Option String
deriving DecidableEq, Repr, Inhabited

/-! ## Repository (`app/domain/repository.py`) -/

/-- `get_archivo_by_id`: `SELECT ... WHERE id_sabanas = :id LIMIT 1`. -/
def get_archivo_by_id (db : ArchStore) (id : Nat) : Option Archivo :=
  (List.find? (fun p => p.1 == id) db).map Prod.snd

/-- The row predicate of `try_mark_estado`'s conditional `UPDATE`:
`WHERE id_sabanas = :id AND estado = :expected`. -/
def estadoMatch (id : Nat) (expected : String) (p : Nat × Archivo) : Bool :=
  p.1 == id && p.2.estado == expected

/-- The `SET` clause of `try_mark_estado` applied to one matched row. -/
def marked (a : Archivo) (new_state : String) (set_inicio set_termino : Bool)
    (now : Nat) : Archivo :=
  { a with
    estado := new_state,
    fecha_inicio := if set_inicio then some now else a.fecha_inicio,
    fecha_termino := if set_termino then some now else a.fecha_termino }

/-- `try_mark_estado`: single conditional `UPDATE`; returns the updated
table and `rowcount == 1`. -/
def try_mark_estado (db : ArchStore) (id : Nat) (expected new_state : String)
    (set_inicio set_termino : Bool) (now : Nat) : ArchStore × Bool :=
  (db.map (fun p =>
      if estadoMatch id expected p then (p.1, marked p.2 new_state set_inicio set_termino now)
      else p),
   db.countP (estadoMatch id expected) == 1)

/-- `mark_error`: unconditional `UPDATE ... SET estado = 'error',
fecha_termino = :now WHERE id_sabanas = :id`. -/
def mark_error (db : ArchStore) (id : Nat) (now : Nat) : ArchStore :=
  db.map (fun p =>
    if p.1 == id then
      (p.1, { p.2 with estado := "error", fecha_termino := some now })
    else p)

/-- `""`-to-`NULL` normalization applied by
`insert_registros_telefonicos_bulk` to the optional string columns. -/
def normOptStr : Option String → Option String
  | some s => if pyStrip s = "" then none else some s
  | none => none

/-- The per-row normalization of `insert_registros_telefonicos_bulk`
(`fecha_hora` is already structural here, so its string round-trip is the
identity). -/
def normalizeRegistro (r : Registro) : Registro :=
  { r with
    imei := normOptStr r.imei,
    latitud := normOptStr r.latitud,
    longitud := normOptStr r.longitud,
    telefono := normOptStr r.telefono,
    numero_b := normOptStr r.numero_b }

/-- The year range validation of `insert_registros_telefonicos_bulk`:
a present `fecha_hora` whose year exceeds `threshold_year` (= current
year + 1) or precedes 1970 aborts the batch. -/
def fechaFueraDeRango (threshold_year : Nat) : Option PyDateTime → Bool
  | some dt => dt.year > threshold_year || dt.year < 1970
  | none => false

/-- `delete_registros_telefonicos_by_archivo`: one transaction deleting
every row of the file; returns the new table and the deleted rowcount. -/
def delete_registros_telefonicos_by_archivo (tbl : List Registro) (id_sabanas : Nat) :
    List Registro × Nat :=
  (tbl.filter (fun r => r.id_sabanas != id_sabanas),
   (tbl.filter (fun r => r.id_sabanas == id_sabanas)).length)

/-- `insert_registros_telefonicos_bulk`: normalizes and validates the
rows, then inserts them all inside one transaction. A validation failure
raises before/inside that transaction, so the table is unchanged — the
caller receives `Except.error` and keeps its previous table. -/
def insert_registros_telefonicos_bulk (tbl : List Registro) (rows : List Registro)
    (threshold_year : Nat) : Except String (List Registro × Nat) :=
  if rows.isEmpty then Except.ok (tbl, 0)
  else
    let normalized := rows.map normalizeRegistro
    if normalized.any (fun r => fechaFueraDeRango threshold_year r.fecha_hora) then
      Except.error "fecha_hora fuera de rango"
    else Except.ok (tbl ++ normalized, normalized.length)

/-- The delete-then-bulk-insert sequence as composed by `run_etl` and by
`run_telcel_v1_etl` / `run_movistar_etl` / `run_att_v1_etl` /
`run_altan_etl`: `delete_registros_telefonicos_by_archivo` commits its own
transaction, then `insert_registros_telefonicos_bulk` runs in a second
transaction; when the insert fails only the insert rolls back, so the
result table after a failure is the post-delete table. -/
def etl_replace_rows (tbl : List Registro) (id : Nat) (rows : List Registro)
    (threshold_year : Nat) : List Registro × Bool :=
  let t1 := (delete_registros_telefonicos_by_archivo tbl id).1
  match insert_registros_telefonicos_bulk t1 rows threshold_year with
  | Except.ok (t2, _) => (t2, true)
  | Except.error _ => (t1, false)

/-! ## Job lifecycle engine (`app/jobs_service.py`) -/

/-- Outcome of `accept_job_sabana`. `notFound` is the raised 404,
`conflictEstado`/`conflictReserva` are the two raised 409s (the first
carries the current state in its detail), `accepted` carries the row
snapshot returned next to the fresh uuid job id. -/
inductive AcceptResult where
  | accepted (row : Archivo)
  | notFound
  | conflictEstado (estado : String)
  | conflictReserva
deriving DecidableEq, Repr

/-- `accept_job_sabana`. The record is read from the snapshot `db0`; the
compare-and-set `UPDATE` executes against `db1`, the table as it stands
when the `UPDATE` runs (a peer worker may have changed it in between;
sequential execution is the instance `db1 = db0`). `try_mark_estado` is
called without timestamp flags, so the instant argument is unused. -/
def accept_job_sabana (db0 db1 : ArchStore) (id : Nat) : AcceptResult × ArchStore :=
  match get_archivo_by_id db0 id with
  | none => (AcceptResult.notFound, db1)
  | some row =>
    if row.estado ≠ "subido" then (AcceptResult.conflictEstado row.estado, db1)
    else
      let res := try_mark_estado db1 id "subido" "en_cola" false false 0
      if res.2 then (AcceptResult.accepted row, res.1)
      else (AcceptResult.conflictReserva, res.1)

/-- What the sheet reading of `run_etl` yields for the downloaded file:
`telcelFrames = some rows` when the Telcel-style header detection found a
table (with `rows` the canonical rows built from it), and `genericRows`
the rows of the generic fallback reader (`none` when that reader
raises). -/
structure EtlEnv where
  telcelFrames : Option (List Registro)
  genericRows : Option (List Registro)
deriving DecidableEq, Repr

/-- The generic fallback branch of `run_etl`: on a read/parse failure it
returns `False`; otherwise it deletes the previous rows of the file,
bulk-inserts the new ones and returns `True` regardless of their count;
an insert failure is caught and yields `False` (with the delete already
committed). -/
def run_etl_generic (tbl : List Registro) (id : Nat) (env : EtlEnv)
    (threshold_year : Nat) : List Registro × Bool :=
  match env.genericRows with
  | none => (tbl, false)
  | some rows =>
    let t1 := (delete_registros_telefonicos_by_archivo tbl id).1
    match insert_registros_telefonicos_bulk t1 rows threshold_year with
    | Except.ok (t2, _) => (t2, true)
    | Except.error _ => (t1, false)

/-- `run_etl`: when a Telcel-style table was detected it deletes the
previous rows, inserts the parsed rows when there are any, and returns
`inserted > 0`; an exception in that attempt is caught and execution
falls through to the generic branch (with the delete already committed).
Without a detected table the generic branch runs directly. -/
def run_etl (tbl : List Registro) (id : Nat) (env : EtlEnv)
    (threshold_year : Nat) : List Registro × Bool :=
  match env.telcelFrames with
  | none => run_etl_generic tbl id env threshold_year
  | some rows =>
    let t1 := (delete_registros_telefonicos_by_archivo tbl id).1
    match insert_registros_telefonicos_bulk t1 rows threshold_year with
    | Except.ok (t2, _) => (t2, !rows.isEmpty)
    | Except.error _ => run_etl_generic t1 id env threshold_year

/-- The environment of one `process_job_sabana` run: whether the FTP
download returned a local path (instead of raising), and what the sheet
readers yield for that file. -/
structure JobEnv where
  download_ok : Bool
  etl : EtlEnv
deriving DecidableEq, Repr

/-- `process_job_sabana`: silent return when the record is missing or not
`en_cola`, or when the compare-and-set to `procesando` moved zero rows;
`mark_error` on a download failure or a falsy ETL result; otherwise the
closing compare-and-set `procesando → procesado` with `fecha_termino`. -/
def process_job_sabana (archivos : ArchStore) (registros : List Registro) (id : Nat)
    (env : JobEnv) (now threshold_year : Nat) : ArchStore × List Registro :=
  match get_archivo_by_id archivos id with
  | none => (archivos, registros)
  | some row =>
    if row.estado ≠ "en_cola" then (archivos, registros)
    else
      let r1 := try_mark_estado archivos id "en_cola" "procesando" true false now
      if !r1.2 then (r1.1, registros)
      else if !env.download_ok then (mark_error r1.1 id now, registros)
      else
        let r2 := run_etl registros id env.etl threshold_year
        if !r2.2 then (mark_error r1.1 id now, r2.1)
        else ((try_mark_estado r1.1 id "procesando" "procesado" false true now).1, r2.1)

/-- The parser implementations present in the repository. `run_etl` only
ever executes its two inline branches; the standalone carrier parsers
(`run_telcel_v1_etl`, `run_movistar_etl`, `run_att_v1_etl`,
`run_altan_etl`) are never invoked by `process_job_sabana`. -/
inductive EtlParser where
  | telcelInline
  | genericFallback
  | telcel_v1
  | movistar
  | att
  | altan
deriving DecidableEq, Repr

/-- Which parser logic `run_etl` applies to a downloaded file.
`run_etl(id_archivo, local_path, correlation_id)` receives no carrier
information at all: the choice depends only on whether the Telcel-style
header detection finds a table in the file. -/
def run_etl_parser_used (env : EtlEnv) : EtlParser :=
  match env.telcelFrames with
  | some _ => EtlParser.telcelInline
  | none => EtlParser.genericFallback

/-- The dispatcher described by the specification (§4.5, first rule):
carrier id lookup in a fixed table. Stated from the spec's words, for
comparison with `run_etl_parser_used`; no such dispatch exists in the
code. -/
def spec_dispatch_by_carrier_id (carrierId : Nat) : Option EtlParser :=
  if carrierId = 1 || carrierId = 2 || carrierId = 3 || carrierId = 14 then
    some EtlParser.telcel_v1
  else if carrierId = 4 || carrierId = 13 then some EtlParser.att
  else if carrierId = 5 then some EtlParser.movistar
  else if carrierId = 12 then some EtlParser.altan
  else none

/-! ## Telcel parser (`app/services/telcel_v1.py`) -/

namespace Telcel

/-- `es_numero_valido`: the stripped, lowered string form is non-empty
(`None` is invalid). -/
def es_numero_valido (num : Option String) : Bool :=
  match num with
  | none => false
  | some x => pyLower (pyStrip x) ≠ ""

/-- `_clean_msisdn`: digits of the cell when there are any, otherwise
the stripped original text. -/
def clean_msisdn (x : Option String) : Option String :=
  if !es_numero_valido x then none
  else
    match x with
    | none => none
    | some s =>
      let only := keepDigits s
      if only ≠ "" then some only else some (pyStrip s)

/-- `_clean_imei`: digits of the cell, truncated to the first 15; `None`
for an empty/blank cell or a cell without digits. Note that fewer than 15
digits pass through unpadded. -/
def clean_imei (x : Option String) : Option String :=
  match x with
  | none => none
  | some s =>
    if pyStrip s = "" then none
    else
      let d := keepDigits s
      if d = "" then none else some (pyTake 15 d)

/-- `_norm` (ASCII fragment): lower-case, strip, turn `.` and `_` into
spaces and collapse whitespace runs. The source additionally strips
Unicode combining accents via NFKD; on accent-free input that step is the
identity, which is the modelled domain here. -/
def norm (s : Option String) : String :=
  match s with
  | none => ""
  | some s0 =>
    collapseSpaces (charReplace '_' ' ' (charReplace '.' ' ' (pyStrip (pyLower s0))))

/-- `_map_tipo`: ordered `startswith` dispatch into the
`TipoRegistroSabana` enum values. -/
def map_tipo (raw : Option String) : Nat :=
  let t := norm raw
  if pyStartsWith "datos" t then 0
  else if pyStartsWith "mensaje entrante" t then 2
  else if pyStartsWith "mensaje saliente" t then 3
  else if pyStartsWith "voz entrante" t then 4
  else if pyStartsWith "voz saliente" t then 5
  else if pyStartsWith "voz transfer" t then 6
  else if pyStartsWith "voz transito" t then 7
  else 8

/-- Characters accepted by the `[°\s]+` separator of `DMS_RE`. -/
def dmsSep1 (c : Char) : Bool := c = '°' || c.isWhitespace

/-- Characters accepted by the `['’\s]+` separator of `DMS_RE`
(the straight apostrophe is written by code point). -/
def dmsSep2 (c : Char) : Bool := c = Char.ofNat 39 || c = '’' || c.isWhitespace

/-- Hemisphere letters of `DMS_RE`. -/
def hemiChar (c : Char) : Bool :=
  c = 'N' || c = 'S' || c = 'E' || c = 'W' ||
  c = 'n' || c = 's' || c = 'e' || c = 'w' || c = 'o'

/-- Negative hemisphere check of `_dms_to_decimal`:
`hemi.upper() in ("S", "W", "O")`. -/
def hemiNeg (c : Char) : Bool :=
  c = 'S' || c = 'W' || c = 'O' || c = 's' || c = 'w' || c = 'o'

/-- Trailing `["\s]*$` of `DMS_RE` (straight quote by code point). -/
def dmsTail (c : Char) : Bool := c = Char.ofNat 34 || c.isWhitespace

/-- Structured reading of `DMS_RE =
`^\s*(\d+)[°\s]+(\d+)['’\s]+([\d\.]+)\s*([NSEWnsewo])?["\s]*$``.
The seconds group `[\d\.]+` is converted with `float(...)`; a group that
`float` rejects (several dots) makes the whole conversion yield `none`
(the source would raise there). -/
def dmsMatch (s : String) : Option Frac :=
  let cs := s.data.dropWhile Char.isWhitespace
  let d1 := cs.takeWhile Char.isDigit
  let r1 := cs.dropWhile Char.isDigit
  if d1.isEmpty then none
  else
    let sep1 := r1.takeWhile dmsSep1
    let r2 := r1.dropWhile dmsSep1
    if sep1.isEmpty then none
    else
      let d2 := r2.takeWhile Char.isDigit
      let r3 := r2.dropWhile Char.isDigit
      if d2.isEmpty then none
      else
        let sep2 := r3.takeWhile dmsSep2
        let r4 := r3.dropWhile dmsSep2
        if sep2.isEmpty then none
        else
          let d3 := r4.takeWhile (fun c => c.isDigit || c = '.')
          let r5 := r4.dropWhile (fun c => c.isDigit || c = '.')
          if d3.isEmpty then none
          else
            let r6 := r5.dropWhile Char.isWhitespace
            let (hemi, r7) :=
              match r6 with
              | c :: rest => if hemiChar c then (some c, rest) else (none, r6)
              | [] => (none, ([] : List Char))
            if !(r7.all dmsTail) then none
            else
              match pyFloat? ⟨d3⟩ with
              | none => none
              | some sec =>
                let val : Frac :=
                  Frac.add (Frac.add (Frac.ofNat (digitsVal ⟨d1⟩))
                    (Frac.divN (Frac.ofNat (digitsVal ⟨d2⟩)) 60)) (Frac.divN sec 3600)
                match hemi with
                | some h => if hemiNeg h then some (Frac.neg val) else some val
                | none => some val

/-- `_dms_to_decimal`: strip, normalize commas and curly double quotes,
then either a plain `float(...)` when no DMS punctuation is present, or
the `DMS_RE` reading. -/
def dms_to_decimal (s : Option String) : Option Frac :=
  match s with
  | none => none
  | some s0 =>
    let s1 := charReplace '“' (Char.ofNat 34) (charReplace '”' (Char.ofNat 34) (charReplace ',' '.' (pyStrip s0)))
    if !(strContains s1 '°' || strContains s1 (Char.ofNat 39) || strContains s1 (Char.ofNat 34)) then
      pyFloat? s1
    else dmsMatch s1

/-- One raw data row as the `_frame_to_rows` loop consumes it: the string
cells of the detected table plus the per-row results of
`_parse_fecha_hora` (pandas/strptime based) and of the two
`pd.to_numeric` casts, which this embedding takes as given inputs. -/
structure TelRow where
  numero_a : Option String
  numero_b : Option String
  latitud : Option String
  longitud : Option String
  imei : Option String
  telefono : Option String
  tipo : Option String
  fa : Option PyDateTime
  durac : Option Frac
  az : Option Frac
deriving DecidableEq, Repr, Inhabited

/-- The `x not in (None, "", "NaN")` guard used for the raw coordinate
cells. -/
def presentCell (s : Option String) : Bool :=
  match s with
  | none => false
  | some v => v ≠ "" && v ≠ "NaN"

/-- The `numero_a` / `numero_b` fallback: the cleaned MSISDN when
available, otherwise the stripped original text (`None`/`""` stay
absent). -/
def msisdn_or_raw (raw : Option String) : Option String :=
  match clean_msisdn raw with
  | some v => some v
  | none =>
    match raw with
    | none => none
    | some s => if s = "" then none else some (pyStrip s)

/-- The loop body of `_frame_to_rows`: builds the canonical row dict for
one data row. -/
def build_row (id_sabanas : Nat) (t : TelRow) : Registro :=
  let a := msisdn_or_raw t.numero_a
  let dur : Int := match t.durac with
    | some q => pyIntOfFloat q
    | none => 0
  let az : Frac := match t.az with
    | some q => q
    | none => Frac.ofNat 0
  let lat_d := if presentCell t.latitud then dms_to_decimal t.latitud else none
  let lon_d := if presentCell t.longitud then dms_to_decimal t.longitud else none
  let tel := match clean_msisdn t.telefono with
    | some v => some v
    | none =>
      match t.telefono with
      | some s => if s = "" then orNone a else some (pyStrip s)
      | none => orNone a
  { id_sabanas := id_sabanas,
    numero_a := a,
    numero_b := msisdn_or_raw t.numero_b,
    id_tipo_registro := map_tipo t.tipo,
    fecha_hora := t.fa,
    duracion := dur,
    latitud := if presentCell t.latitud then t.latitud else none,
    longitud := if presentCell t.longitud then t.longitud else none,
    azimuth := some az,
    latitud_decimal := lat_d,
    longitud_decimal := lon_d,
    altitud := Frac.ofNat 0,
    coordenada_objetivo := if lat_d = none ∧ lon_d = none then some false else none,
    imei := clean_imei t.imei,
    telefono := tel }

/-- `_is_meaningful`: keep a built row only when `imei`, raw `latitud`,
raw `longitud` are truthy and `azimuth` is neither `None` nor `0`.
No condition is placed on `numero_a` or `fecha_hora`. -/
def is_meaningful (r : Registro) : Bool :=
  optTruthy r.imei && optTruthy r.latitud && optTruthy r.longitud &&
    (match r.azimuth with
     | none => false
     | some q => decide (q ≠ Frac.ofNat 0))

/-- `_frame_to_rows`: build every row, then keep the meaningful ones. -/
def frame_to_rows (id_sabanas : Nat) (ts : List TelRow) : List Registro :=
  (ts.map (build_row id_sabanas)).filter is_meaningful

/-- The deduplication key of `run_telcel_v1_etl`:
`(numero_a, fecha_hora, latitud, longitud)`. -/
def tKey (r : Registro) : Option String × Option PyDateTime × Option String × Option String :=
  (r.numero_a, r.fecha_hora, r.latitud, r.longitud)

/-- One step of the `dedup_map` loop: a new key is appended; an existing
key keeps its stored row unless the incoming row has strictly larger
`duracion`, in which case it replaces it in place. -/
def dedupStep (acc : List Registro) (r : Registro) : List Registro :=
  if acc.any (fun x => tKey x == tKey r) then
    acc.map (fun x => if tKey x = tKey r ∧ x.duracion < r.duracion then r else x)
  else acc ++ [r]

/-- The `dedup_map` pass of `run_telcel_v1_etl` (a Python dict preserves
insertion order, so the surviving rows keep the order in which their keys
first appeared). -/
def telcel_dedup (rows : List Registro) : List Registro :=
  rows.foldl dedupStep []

end Telcel

/-! ## Duration normalizer (`_parse_duration_to_seconds`, defined
identically in `app/services/movistar.py` and `app/services/altan.py`) -/

/-- The `int(float(s))` last resort of `_parse_duration_to_seconds`:
truncation toward zero of the parsed float, `0` when `float` raises. -/
def durationFloatFallback (s : String) : Int :=
  match pyFloat? s with
  | some q => pyIntOfFloat q
  | none => 0

/-- `_parse_duration_to_seconds` (Movistar and Altán): `None`/`NaN` and
blank give 0; an all-digit string is seconds; two or three all-digit
colon fields are `mm:ss` / `hh:mm:ss`; anything else goes through
`int(float(s))`, which returns 0 only when `float` raises. -/
def parse_duration_to_seconds (x : Option String) : Int :=
  match x with
  | none => 0
  | some x0 =>
    let s := pyStrip x0
    if s = "" then 0
    else if pyIsdigit s then (digitsVal s : Int)
    else
      let parts := pySplitCh ':' s
      if parts.all pyIsdigit then
        match parts with
        | [mm, ss] => (digitsVal mm * 60 + digitsVal ss : Int)
        | [hh, mm, ss] => (digitsVal hh * 3600 + digitsVal mm * 60 + digitsVal ss : Int)
        | _ => durationFloatFallback s
      else durationFloatFallback s

/-! ## Movistar parser (`app/services/movistar.py`) -/

namespace Movistar

/-- `_only_digits`: `None`/blank give `None`, otherwise the digit
characters of the stripped cell (possibly the empty string). -/
def only_digits (s : Option String) : Option String :=
  match s with
  | none => none
  | some s0 =>
    let t := pyStrip s0
    if t = "" then none else some (keepDigits t)

/-- `_is_all_zeros`: falsy strings count as all-zero. -/
def is_all_zeros (s : Option String) : Bool :=
  match s with
  | none => true
  | some s0 => if s0 = "" then true else s0.data.all (fun c => c == '0')

/-- `_clean_msisdn`: the digit string unless it is missing, empty or all
zeros. -/
def clean_msisdn (s : Option String) : Option String :=
  match only_digits s with
  | none => none
  | some d => if d = "" || is_all_zeros (some d) then none else some d

/-- `_clean_imei`: the digit string only when it has exactly 15 digits. -/
def clean_imei (s : Option String) : Option String :=
  match only_digits s with
  | none => none
  | some d => if d = "" then none else if d.length ≠ 15 then none else some d

/-- `_map_tipo_registro`: `(TIPO CDR, TIPO EVENTO)` into the
`ctg_tipo_registro_sabana` ids. -/
def map_tipo_registro (tipo_cdr tipo_evento : Option String) : Nat :=
  let c := pyUpper (pyStrip (tipo_cdr.getD ""))
  let e := pyUpper (pyStrip (tipo_evento.getD ""))
  if c = "GSM" then
    (if e = "ENTRANTE" then 4 else if e = "SALIENTE" then 5 else 8)
  else if c = "SMS" then
    (if e = "ENTRANTE" then 2 else if e = "SALIENTE" then 3 else 8)
  else 8

/-- Optional decimal groups (`\d+(?:[.,]\d+)?`) of the `_DMS` regex:
digits, optionally a dot/comma and more digits. Returns the numeric value
and the rest. -/
def dmsNumber (cs : List Char) : Option (Frac × List Char) :=
  let d1 := cs.takeWhile Char.isDigit
  let r1 := cs.dropWhile Char.isDigit
  if d1.isEmpty then none
  else
    match r1 with
    | c :: cs2 =>
      if c = '.' || c = ',' then
        let d2 := cs2.takeWhile Char.isDigit
        let r2 := cs2.dropWhile Char.isDigit
        if d2.isEmpty then some (Frac.ofNat (digitsVal ⟨d1⟩), r1)
        else some (Frac.ofScaled
          ((digitsVal ⟨d1⟩ * 10 ^ d2.length + digitsVal ⟨d2⟩ : Nat) : Int)
          (-(d2.length : Int)), r2)
      else some (Frac.ofNat (digitsVal ⟨d1⟩), r1)
    | [] => some (Frac.ofNat (digitsVal ⟨d1⟩), [])

/-- Degree/minute/second unit marks of the `_DMS` regex (`°`, `º`, one
whitespace or `deg`; `'`, `’` or `m`; `"`, `”` or `s`), case tolerant. -/
def dmsDegMark : List Char → List Char
  | c :: cs =>
    if c = '°' || c = 'º' || c.isWhitespace then cs
    else if c = 'd' || c = 'D' then
      match cs with
      | e :: g :: rest =>
        if (e = 'e' || e = 'E') && (g = 'g' || g = 'G') then rest else c :: cs
      | _ => c :: cs
    else c :: cs
  | [] => []

def dmsMinMark : List Char → List Char
  | c :: cs =>
    if c = Char.ofNat 39 || c = '’' || c = 'm' || c = 'M' then cs else c :: cs
  | [] => []

def dmsSecMark : List Char → List Char
  | c :: cs =>
    if c = Char.ofNat 34 || c = '”' || c = 's' || c = 'S' then cs else c :: cs
  | [] => []

/-- The Movistar `_DMS` regex, read structurally: optional sign and
decimal degrees with an optional unit mark, then optional minutes and
seconds groups, then an optional hemisphere letter (`N`,`S`,`E`,`O`,`W`,
case tolerant). The value is `sign * (|deg| + min/60 + sec/3600)` with
the sign taken from the hemisphere when it is `S`/`W`/`O`, as in
`_to_decimal`. -/
def movDms (s : String) : Option Frac :=
  let cs := s.data.dropWhile Char.isWhitespace
  let (sg, cs1) : Int × List Char :=
    match cs with
    | c :: rest => if c = '-' then (-1, rest) else (1, cs)
    | [] => (1, [])
  match dmsNumber cs1 with
  | none => none
  | some (deg, r1) =>
    let r2 := dmsDegMark r1
    let (minutes, r3) :=
      match dmsNumber (r2.dropWhile Char.isWhitespace) with
      | some (m, rr) => (m, dmsMinMark rr)
      | none => (Frac.ofNat 0, r2)
    let (seconds, r4) :=
      match dmsNumber (r3.dropWhile Char.isWhitespace) with
      | some (m, rr) => (m, dmsSecMark rr)
      | none => (Frac.ofNat 0, r3)
    let r5 := r4.dropWhile Char.isWhitespace
    let (hem, r6) :=
      match r5 with
      | c :: rest =>
        if c = 'N' || c = 'S' || c = 'E' || c = 'O' || c = 'W' ||
           c = 'n' || c = 's' || c = 'e' || c = 'o' || c = 'w' then (some c, rest)
        else (none, r5)
      | [] => (none, ([] : List Char))
    if !(r6.all Char.isWhitespace) then none
    else
      let base : Frac :=
        Frac.add (Frac.add (Frac.abs (Frac.mulInt sg deg))
          (Frac.divN minutes 60)) (Frac.divN seconds 3600)
      let negHem : Bool :=
        match hem with
        | some c => c = 'S' || c = 's' || c = 'W' || c = 'w' || c = 'O' || c = 'o'
        | none => false
      some (if negHem then Frac.neg base else base)

/-- `_to_decimal` (Movistar): a plain float after comma-to-dot
replacement, otherwise the `_DMS` reading, otherwise `None`. -/
def to_decimal (coord : Option String) : Option Frac :=
  match coord with
  | none => none
  | some c =>
    let s := pyStrip c
    if s = "" then none
    else
      match pyFloat? (charReplace ',' '.' s) with
      | some q => some q
      | none => movDms s

/-- One raw Movistar data row: the string cells of a detected block plus
the per-row `_parse_fecha_hora` result (strptime/pandas based), which
this embedding takes as a given input. -/
structure MovRow where
  tipo_cdr : Option String
  numero_a : Option String
  numero_b : Option String
  tipo_evento : Option String
  duracion : Option String
  imei : Option String
  imsi : Option String
  codbts : Option String
  latitud : Option String
  longitud : Option String
  fecha_hora : Option PyDateTime
deriving DecidableEq, Repr, Inhabited

/-- The derived columns `_normalize_rows` adds to a block before
filtering. -/
structure MovClean where
  row : MovRow
  numero_a_clean : Option String
  numero_b_clean : Option String
  imei_clean : Option String
  duracion_s : Int
  lat_dec : Option Frac
  lon_dec : Option Frac
  id_tipo_registro : Nat
deriving DecidableEq, Repr, Inhabited

def clean (r : MovRow) : MovClean :=
  { row := r,
    numero_a_clean := clean_msisdn r.numero_a,
    numero_b_clean := clean_msisdn r.numero_b,
    imei_clean := clean_imei r.imei,
    duracion_s := parse_duration_to_seconds r.duracion,
    lat_dec := to_decimal r.latitud,
    lon_dec := to_decimal r.longitud,
    id_tipo_registro := map_tipo_registro r.tipo_cdr r.tipo_evento }

/-- The GSM test of filter rule 3:
`df["tipo_cdr"].fillna("").str.strip().str.upper().eq("GSM")`. -/
def is_gsm (c : MovClean) : Bool :=
  pyUpper (pyStrip (c.row.tipo_cdr.getD "")) == "GSM"

/-- The three agreed discard rules of `_normalize_rows`: `numero_a`
required, `fecha_hora` required, IMEI required only for GSM rows. -/
def keep (c : MovClean) : Bool :=
  c.numero_a_clean.isSome && c.row.fecha_hora.isSome &&
    (!(is_gsm c) || c.imei_clean.isSome)

def hasCoords (c : MovClean) : Bool := c.lat_dec.isSome && c.lon_dec.isSome

/-- Group key for rows with both decimal coordinates. -/
def key1 (c : MovClean) : Option String × Option PyDateTime × Option Frac × Option Frac :=
  (c.numero_a_clean, c.row.fecha_hora, c.lat_dec, c.lon_dec)

/-- Group key for rows missing a decimal coordinate. -/
def key2 (c : MovClean) : Option String × Option String × Option PyDateTime × Nat :=
  (c.numero_a_clean, c.numero_b_clean, c.row.fecha_hora, c.id_tipo_registro)

end Movistar

/-- `groupby(...).head(1)` over a pre-sorted list: keep the first
occurrence of every key, in order. Fuelled by the list length so that the
recursion is structural. -/
def keepFirstByAux {α κ : Type} [DecidableEq κ] (key : α → κ) : Nat → List α → List α
  | _, [] => []
  | 0, _ :: _ => []
  | Nat.succ n, x :: xs =>
    x :: keepFirstByAux key n (xs.filter (fun y => decide (key y ≠ key x)))

def keepFirstBy {α κ : Type} [DecidableEq κ] (key : α → κ) (l : List α) : List α :=
  keepFirstByAux key l.length l

/-- Insertion step of the sorting model. -/
def insertSorted {α : Type} (le : α → α → Bool) (x : α) : List α → List α
  | [] => [x]
  | y :: ys => if le x y then x :: y :: ys else y :: insertSorted le x ys

/-- `pandas.sort_values`, modelled with a structural insertion sort (the
theorems only rely on membership in the sorted output; pandas' default
quicksort likewise fixes no tie order). -/
def sortBy {α : Type} (le : α → α → Bool) : List α → List α
  | [] => []
  | x :: xs => insertSorted le x (sortBy le xs)

namespace Movistar

/-- `sort_values("duracion_s", ascending=False)`. -/
def sortByDurDesc (l : List MovClean) : List MovClean :=
  sortBy (fun a b => decide (b.duracion_s ≤ a.duracion_s)) l

/-- A total order for a `PyDateTime`, ascending in
(year, month, day, hour, minute, second) for calendar-valid values. -/
def dtNat (d : PyDateTime) : Nat :=
  ((((d.year * 13 + d.month) * 32 + d.day) * 24 + d.hour) * 60 + d.minute) * 61 + d.second

def optNatLt : Option Nat → Option Nat → Bool
  | some x, some y => decide (x < y)
  | some _, none => true
  | none, _ => false

def optStrLt : Option String → Option String → Bool
  | some x, some y => decide (x < y)
  | some _, none => true
  | none, _ => false

/-- The output ordering
`sort_values(["fecha_hora", "numero_a_clean", "numero_b_clean"])`,
ascending with missing values last. -/
def movFinalLe (a b : MovClean) : Bool :=
  let fa := a.row.fecha_hora.map dtNat
  let fb := b.row.fecha_hora.map dtNat
  optNatLt fa fb ||
    (fa == fb && (optStrLt a.numero_a_clean b.numero_a_clean ||
      (a.numero_a_clean == b.numero_a_clean &&
        (optStrLt a.numero_b_clean b.numero_b_clean ||
          a.numero_b_clean == b.numero_b_clean))))

/-- The insertion dict built from one final row of `_normalize_rows`. -/
def build (id_sabanas : Nat) (c : MovClean) : Registro :=
  { id_sabanas := id_sabanas,
    numero_a := c.numero_a_clean,
    numero_b := c.numero_b_clean,
    id_tipo_registro := c.id_tipo_registro,
    fecha_hora := c.row.fecha_hora,
    duracion := c.duracion_s,
    latitud := c.row.latitud,
    longitud := c.row.longitud,
    azimuth := some (Frac.ofNat 360),
    latitud_decimal := c.lat_dec,
    longitud_decimal := c.lon_dec,
    altitud := Frac.ofNat 0,
    coordenada_objetivo := if c.lat_dec.isSome && c.lon_dec.isSome then none else some false,
    imei := c.imei_clean,
    telefono := c.numero_a_clean }

/-- `_normalize_rows` for one block: clean, apply the three discard
rules, deduplicate the coordinate rows by `key1` and the rest by `key2`
keeping the largest duration, concatenate, order the output and build
the insertion dicts. -/
def normalize_rows (id_sabanas : Nat) (rows : List MovRow) : List Registro :=
  let kept := (rows.map clean).filter keep
  let wc := kept.filter hasCoords
  let woc := kept.filter (fun c => !hasCoords c)
  let wc2 := keepFirstBy key1 (sortByDurDesc wc)
  let woc2 := keepFirstBy key2 (sortByDurDesc woc)
  (sortBy movFinalLe (wc2 ++ woc2)).map (build id_sabanas)

end Movistar

/-! ## AT&T parser (`app/services/att.py`) -/

namespace Att

/-- The `^\[\s*(.*?)\s*\]$` list-cell shape shared by `AZ_LIST_RE` and
`_pick_last_nonzero`. -/
def isListForm (s : String) : Bool :=
  pyStartsWith "[" s && pyEndsWith "]" s && 2 ≤ s.data.length

/-- The bracket-stripped, trimmed inner text of a `[a:b:c]` cell, split
on `:` with each part stripped. -/
def listParts (s : String) : List String :=
  (pySplitCh ':' (pyStrip ⟨(s.data.drop 1).dropLast⟩)).map pyStrip

/-- The numeric test `_pick_last_nonzero` applies to one part:
`float(str(p).replace(",", "."))`. -/
def partVal (p : String) : Option Frac :=
  pyFloat? (charReplace ',' '.' p)

/-- Whether a part passes the non-zero numeric test. -/
def partNonzero (p : String) : Bool :=
  match partVal p with
  | some q => decide (q ≠ Frac.ofNat 0)
  | none => false

/-- The reversed scan of `_pick_last_nonzero`: first part whose float
value is non-zero; a part `float` rejects is taken as a textual candidate
when non-empty; a zero or empty part is skipped. -/
def pickLoop : List String → Option String
  | [] => none
  | p :: ps =>
    match partVal p with
    | some q => if q ≠ Frac.ofNat 0 then some p else pickLoop ps
    | none => if p ≠ "" then some p else pickLoop ps

/-- `_pick_last_nonzero`: `None` for missing/blank cells; non-list cells
pass through stripped; list cells select by the reversed scan, falling
back to the last part. -/
def pick_last_nonzero (value : Option String) : Option String :=
  match value with
  | none => none
  | some v =>
    let s := pyStrip v
    if s = "" then none
    else if isListForm s then
      match pickLoop (listParts s).reverse with
      | some c => some c
      | none => (listParts s).getLast?
    else some s

/-- The forward scan of `_parse_azimuth` over the list parts: skip blank
parts, return the first `float(...)` success. -/
def azLoop : List String → Option Frac
  | [] => none
  | p :: ps =>
    if p = "" then azLoop ps
    else
      match pyFloat? p with
      | some q => some q
      | none => azLoop ps

/-- `_parse_azimuth`: strip and comma-to-dot the cell; `None` for blank
or `nan`; for a list cell the first parseable part; otherwise
`float(s)`. -/
def parse_azimuth (val : Option String) : Option Frac :=
  match val with
  | none => none
  | some v =>
    let s := charReplace ',' '.' (pyStrip v)
    if s = "" || pyLower s = "nan" then none
    else if isListForm s then azLoop (listParts s)
    else pyFloat? s

end Att

/-! ## Helper lemmas on the repository operations -/

/-- The row update of `try_mark_estado` never changes a row's key. -/
theorem try_mark_upd_fst (id : Nat) (expected new_state : String)
    (si st : Bool) (now : Nat) (p : Nat × Archivo) :
    ((if estadoMatch id expected p then
        (p.1, marked p.2 new_state si st now) else p)).1 = p.1 := by
  cases h : estadoMatch id expected p <;> simp [h]

/-- `try_mark_estado` preserves the key column. -/
theorem try_mark_map_fst (db : ArchStore) (id : Nat) (expected new_state : String)
    (si st : Bool) (now : Nat) :
    (try_mark_estado db id expected new_state si st now).1.map Prod.fst = db.map Prod.fst := by
  unfold try_mark_estado
  rw [List.map_map]
  exact List.map_congr_left (fun p _ => try_mark_upd_fst id expected new_state si st now p)

/-- `mark_error` preserves the key column. -/
theorem mark_error_map_fst (db : ArchStore) (id now : Nat) :
    (mark_error db id now).map Prod.fst = db.map Prod.fst := by
  unfold mark_error
  rw [List.map_map]
  refine List.map_congr_left (fun p _ => ?_)
  by_cases h : p.1 = id <;> simp [h]

/-- A successful lookup is a `find?` hit on the key predicate. -/
theorem get_eq_some_iff (db : ArchStore) (id : Nat) (a : Archivo) :
    get_archivo_by_id db id = some a ↔
      ∃ p, List.find? (fun q => q.1 == id) db = some p ∧ p.2 = a ∧ p.1 = id := by
  unfold get_archivo_by_id
  constructor
  · intro h
    cases hf : List.find? (fun q => q.1 == id) db with
    | none => rw [hf] at h; exact absurd h (by simp)
    | some p =>
      rw [hf] at h
      have hp2 : p.2 = a := by simpa using h
      have hp1 : p.1 = id := by
        have := List.find?_some hf
        simpa using this
      exact ⟨p, rfl, hp2, hp1⟩
  · rintro ⟨p, hf, hp2, -⟩
    rw [hf]
    simp [hp2]

/-- Reading back the record after a matched `try_mark_estado`: the stored
row is the `SET`-updated one. -/
theorem get_try_mark_matched (db : ArchStore) (id : Nat) (expected new_state : String)
    (si st : Bool) (now : Nat) (a : Archivo)
    (hget : get_archivo_by_id db id = some a) (hexp : a.estado = expected) :
    get_archivo_by_id (try_mark_estado db id expected new_state si st now).1 id =
      some (marked a new_state si st now) := by
  obtain ⟨p, hf, hp2, hp1⟩ := (get_eq_some_iff db id a).1 hget
  unfold get_archivo_by_id try_mark_estado
  have hcomp : (fun q : Nat × Archivo => q.1 == id) ∘
      (fun q : Nat × Archivo =>
        if estadoMatch id expected q then (q.1, marked q.2 new_state si st now) else q) =
      (fun q : Nat × Archivo => q.1 == id) := by
    funext q
    simp only [Function.comp_apply]
    cases hq : estadoMatch id expected q <;> simp [hq]
  rw [List.find?_map, hcomp, hf]
  have hm : estadoMatch id expected p = true := by
    unfold estadoMatch
    rw [hp1, hp2, hexp]
    simp
  simp [hm, hp2]

/-- Reading back the record after an unmatched `try_mark_estado`: the
stored row is unchanged. -/
theorem get_try_mark_unmatched (db : ArchStore) (id : Nat) (expected new_state : String)
    (si st : Bool) (now : Nat) (a : Archivo)
    (hget : get_archivo_by_id db id = some a) (hexp : a.estado ≠ expected) :
    get_archivo_by_id (try_mark_estado db id expected new_state si st now).1 id = some a := by
  obtain ⟨p, hf, hp2, hp1⟩ := (get_eq_some_iff db id a).1 hget
  unfold get_archivo_by_id try_mark_estado
  have hcomp : (fun q : Nat × Archivo => q.1 == id) ∘
      (fun q : Nat × Archivo =>
        if estadoMatch id expected q then (q.1, marked q.2 new_state si st now) else q) =
      (fun q : Nat × Archivo => q.1 == id) := by
    funext q
    simp only [Function.comp_apply]
    cases hq : estadoMatch id expected q <;> simp [hq]
  rw [List.find?_map, hcomp, hf]
  have hm : estadoMatch id expected p = false := by
    unfold estadoMatch
    rw [hp2]
    simp [hexp]
  simp [hm, hp2]

/-- On a missing key, `try_mark_estado` leaves the table unchanged and
reports failure. -/
theorem try_mark_absent (db : ArchStore) (id : Nat) (expected new_state : String)
    (si st : Bool) (now : Nat) (hget : get_archivo_by_id db id = none) :
    try_mark_estado db id expected new_state si st now = (db, false) := by
  have hf : List.find? (fun q => q.1 == id) db = none := by
    unfold get_archivo_by_id at hget
    cases hf : List.find? (fun q => q.1 == id) db with
    | none => rfl
    | some p => rw [hf] at hget; exact absurd hget (by simp)
  have hall := List.find?_eq_none.1 hf
  have hnm : ∀ p ∈ db, estadoMatch id expected p = false := by
    intro p hp
    have h := hall p hp
    simp only [Bool.not_eq_true] at h
    unfold estadoMatch
    simp [h]
  unfold try_mark_estado
  have h1 : db.map (fun p =>
      if estadoMatch id expected p then (p.1, marked p.2 new_state si st now) else p) =
      db.map (fun p => p) :=
    List.map_congr_left (fun p hp => by simp [hnm p hp])
  have h2 : db.countP (estadoMatch id expected) = 0 :=
    List.countP_eq_zero.2 (fun p hp => by simp [hnm p hp])
  rw [h1, h2]
  simp

/-- The reported success of `try_mark_estado` is exactly `rowcount = 1`. -/
theorem try_mark_rowcount (db : ArchStore) (id : Nat) (expected new_state : String)
    (si st : Bool) (now : Nat) :
    (try_mark_estado db id expected new_state si st now).2 = true ↔
      db.countP (estadoMatch id expected) = 1 := by
  unfold try_mark_estado
  simp

/-- With unique keys, the matched rowcount of `try_mark_estado` is 1 when
the stored record is in the expected state and 0 otherwise. -/
theorem countP_estadoMatch (db : ArchStore) (id : Nat) (expected : String) (a : Archivo)
    (hget : get_archivo_by_id db id = some a) (hnd : (db.map Prod.fst).Nodup) :
    db.countP (estadoMatch id expected) = if a.estado = expected then 1 else 0 := by
  induction db with
  | nil => exact absurd hget (by simp [get_archivo_by_id])
  | cons hd tl ih =>
    rw [List.map_cons, List.nodup_cons] at hnd
    by_cases hk : hd.1 = id
    · have hfind : List.find? (fun q => q.1 == id) (hd :: tl) = some hd :=
        List.find?_cons_of_pos _ (by simp [hk])
      have hhd : hd.2 = a := by
        unfold get_archivo_by_id at hget
        rw [hfind] at hget
        simpa using hget
      have h0 : tl.countP (estadoMatch id expected) = 0 := by
        refine List.countP_eq_zero.2 (fun p hp => ?_)
        have hne : p.1 ≠ id := by
          intro hEq
          have hmem : p.1 ∈ tl.map Prod.fst := List.mem_map_of_mem Prod.fst hp
          rw [hEq, ← hk] at hmem
          exact hnd.1 hmem
        unfold estadoMatch
        simp [hne]
      rw [List.countP_cons, h0]
      unfold estadoMatch
      rw [hhd, hk]
      by_cases hs : a.estado = expected
      · simp [hs]
      · simp [hs]
    · have hfind : List.find? (fun q => q.1 == id) (hd :: tl) =
          List.find? (fun q => q.1 == id) tl :=
        List.find?_cons_of_neg _ (by simp [hk])
      have hget' : get_archivo_by_id tl id = some a := by
        unfold get_archivo_by_id at hget ⊢
        rw [hfind] at hget
        exact hget
      have hm : estadoMatch id expected hd = false := by
        unfold estadoMatch
        simp [hk]
      rw [List.countP_cons, hm, ih hget' hnd.2]
      simp

/-- Reading back the record after `mark_error`: the stored row carries
`estado = "error"` and the closing timestamp, whatever it held before. -/
theorem get_mark_error (db : ArchStore) (id now : Nat) (a : Archivo)
    (hget : get_archivo_by_id db id = some a) :
    get_archivo_by_id (mark_error db id now) id =
      some { a with estado := "error", fecha_termino := some now } := by
  obtain ⟨p, hf, hp2, hp1⟩ := (get_eq_some_iff db id a).1 hget
  unfold get_archivo_by_id mark_error
  have hcomp : (fun q : Nat × Archivo => q.1 == id) ∘
      (fun q : Nat × Archivo =>
        if q.1 == id then (q.1, { q.2 with estado := "error", fecha_termino := some now })
        else q) =
      (fun q : Nat × Archivo => q.1 == id) := by
    funext q
    simp only [Function.comp_apply]
    cases hq : (q.1 == id) <;> simp [hq]
  rw [List.find?_map, hcomp, hf]
  simp [hp1, hp2]

/-! ## Helper lemmas on the Telcel deduplication -/

namespace Telcel

/-- Replacing a stored row by a same-key incoming row keeps the key list
of the accumulator pointwise unchanged. -/
theorem dedupStep_map_tKey_any (acc : List Registro) (r : Registro)
    (h : acc.any (fun x => tKey x == tKey r) = true) :
    (dedupStep acc r).map tKey = acc.map tKey := by
  unfold dedupStep
  rw [if_pos h, List.map_map]
  refine List.map_congr_left (fun x _ => ?_)
  by_cases hc : tKey x = tKey r ∧ x.duracion < r.duracion
  · simp [hc, hc.1]
  · simp [hc]

/-- A fresh key is appended at the end. -/
theorem dedupStep_map_tKey_new (acc : List Registro) (r : Registro)
    (h : acc.any (fun x => tKey x == tKey r) = false) :
    (dedupStep acc r).map tKey = acc.map tKey ++ [tKey r] := by
  unfold dedupStep
  rw [if_neg (by simp [h])]
  simp

/-- Every row of a `dedupStep` result comes from the accumulator or is
the incoming row. -/
theorem dedupStep_mem (acc : List Registro) (r x : Registro)
    (hx : x ∈ dedupStep acc r) : x ∈ acc ∨ x = r := by
  unfold dedupStep at hx
  by_cases h : acc.any (fun y => tKey y == tKey r) = true
  · rw [if_pos h] at hx
    obtain ⟨y, hy, hxy⟩ := List.mem_map.1 hx
    by_cases hc : tKey y = tKey r ∧ y.duracion < r.duracion
    · right
      rw [if_pos hc] at hxy
      exact hxy.symm
    · left
      rw [if_neg hc] at hxy
      exact hxy ▸ hy
  · rw [if_neg h] at hx
    rcases List.mem_append.1 hx with h1 | h2
    · exact Or.inl h1
    · exact Or.inr (by simpa using h2)

/-- Key coverage of one `dedupStep`. -/
theorem dedupStep_keys (acc : List Registro) (r : Registro) (k) :
    k ∈ (dedupStep acc r).map tKey ↔ k ∈ acc.map tKey ∨ k = tKey r := by
  by_cases h : acc.any (fun y => tKey y == tKey r) = true
  · rw [dedupStep_map_tKey_any acc r h]
    constructor
    · exact Or.inl
    · rintro (hk | rfl)
      · exact hk
      · obtain ⟨y, hy, hky⟩ := List.any_eq_true.1 h
        have : tKey y = tKey r := by simpa using hky
        exact this ▸ List.mem_map_of_mem tKey hy
  · rw [dedupStep_map_tKey_new acc r (by simpa using h)]
    simp [List.mem_append]

/-- One `dedupStep` preserves distinctness of the stored keys. -/
theorem dedupStep_nodup (acc : List Registro) (r : Registro)
    (h : (acc.map tKey).Nodup) : ((dedupStep acc r).map tKey).Nodup := by
  by_cases ha : acc.any (fun y => tKey y == tKey r) = true
  · rw [dedupStep_map_tKey_any acc r ha]
    exact h
  · rw [dedupStep_map_tKey_new acc r (by simpa using ha)]
    have hnot : tKey r ∉ acc.map tKey := by
      intro hmem
      obtain ⟨y, hy, hky⟩ := List.mem_map.1 hmem
      have : acc.any (fun y => tKey y == tKey r) = true :=
        List.any_eq_true.2 ⟨y, hy, by simp [hky]⟩
      exact absurd this (by simpa using ha)
    simp [List.nodup_append, h, hnot]

/-- The duration stored at a key never decreases through one step. -/
theorem dedupStep_dur_mono (acc : List Registro) (r x : Registro) (hx : x ∈ acc) :
    ∃ y ∈ dedupStep acc r, tKey y = tKey x ∧ x.duracion ≤ y.duracion := by
  unfold dedupStep
  by_cases h : acc.any (fun y => tKey y == tKey r) = true
  · rw [if_pos h]
    refine ⟨if tKey x = tKey r ∧ x.duracion < r.duracion then r else x,
      List.mem_map_of_mem _ hx, ?_⟩
    by_cases hc : tKey x = tKey r ∧ x.duracion < r.duracion
    · rw [if_pos hc]
      exact ⟨hc.1.symm, le_of_lt hc.2⟩
    · rw [if_neg hc]
      exact ⟨rfl, le_refl _⟩
  · rw [if_neg h]
    exact ⟨x, List.mem_append.2 (Or.inl hx), rfl, le_refl _⟩

/-- After one step the incoming row's key is stored with a duration at
least the incoming one. -/
theorem dedupStep_dur_new (acc : List Registro) (r : Registro) :
    ∃ y ∈ dedupStep acc r, tKey y = tKey r ∧ r.duracion ≤ y.duracion := by
  unfold dedupStep
  by_cases h : acc.any (fun y => tKey y == tKey r) = true
  · rw [if_pos h]
    obtain ⟨x0, hx0, hk0⟩ := List.any_eq_true.1 h
    have hk0' : tKey x0 = tKey r := by simpa using hk0
    refine ⟨if tKey x0 = tKey r ∧ x0.duracion < r.duracion then r else x0,
      List.mem_map_of_mem _ hx0, ?_⟩
    by_cases hc : tKey x0 = tKey r ∧ x0.duracion < r.duracion
    · rw [if_pos hc]
      exact ⟨rfl, le_refl _⟩
    · rw [if_neg hc]
      have : ¬x0.duracion < r.duracion := fun hd => hc ⟨hk0', hd⟩
      exact ⟨hk0', le_of_not_lt this⟩
  · rw [if_neg h]
    exact ⟨r, List.mem_append.2 (Or.inr (by simp)), rfl, le_refl _⟩

/-- Folded membership: every surviving row is an accumulator row or an
input row. -/
theorem dedup_fold_mem (l : List Registro) :
    ∀ acc x, x ∈ l.foldl dedupStep acc → x ∈ acc ∨ x ∈ l := by
  induction l with
  | nil => intro acc x hx; exact Or.inl hx
  | cons r rest ih =>
    intro acc x hx
    rcases ih (dedupStep acc r) x hx with h1 | h2
    · rcases dedupStep_mem acc r x h1 with ha | hr
      · exact Or.inl ha
      · exact Or.inr (hr ▸ List.mem_cons_self r rest)
    · exact Or.inr (List.mem_cons_of_mem r h2)

/-- Folded key coverage. -/
theorem dedup_fold_keys (l : List Registro) :
    ∀ acc k, k ∈ (l.foldl dedupStep acc).map tKey ↔
      k ∈ acc.map tKey ∨ k ∈ l.map tKey := by
  induction l with
  | nil => intro acc k; simp
  | cons r rest ih =>
    intro acc k
    rw [List.foldl_cons, ih (dedupStep acc r) k, dedupStep_keys acc r k]
    simp [or_assoc]

/-- Folded key distinctness. -/
theorem dedup_fold_nodup (l : List Registro) :
    ∀ acc, (acc.map tKey).Nodup → ((l.foldl dedupStep acc).map tKey).Nodup := by
  induction l with
  | nil => intro acc h; exact h
  | cons r rest ih =>
    intro acc h
    exact ih (dedupStep acc r) (dedupStep_nodup acc r h)

/-- Folded duration monotonicity for accumulator rows. -/
theorem dedup_fold_dur_acc (l : List Registro) :
    ∀ acc x, x ∈ acc →
      ∃ y ∈ l.foldl dedupStep acc, tKey y = tKey x ∧ x.duracion ≤ y.duracion := by
  induction l with
  | nil => intro acc x hx; exact ⟨x, hx, rfl, le_refl _⟩
  | cons r rest ih =>
    intro acc x hx
    obtain ⟨y, hy, hky, hdy⟩ := dedupStep_dur_mono acc r x hx
    obtain ⟨z, hz, hkz, hdz⟩ := ih (dedupStep acc r) y hy
    exact ⟨z, hz, hkz.trans hky, le_trans hdy hdz⟩

/-- Folded duration domination for input rows: the surviving row of each
input row's key has a duration at least as large. -/
theorem dedup_fold_dur (l : List Registro) :
    ∀ acc x, x ∈ l →
      ∃ y ∈ l.foldl dedupStep acc, tKey y = tKey x ∧ x.duracion ≤ y.duracion := by
  induction l with
  | nil => intro acc x hx; exact absurd hx (List.not_mem_nil x)
  | cons r rest ih =>
    intro acc x hx
    rcases List.mem_cons.1 hx with rfl | hmem
    · obtain ⟨y, hy, hky, hdy⟩ := dedupStep_dur_new acc x
      obtain ⟨z, hz, hkz, hdz⟩ := dedup_fold_dur_acc rest (dedupStep acc x) y hy
      exact ⟨z, hz, hkz.trans hky, le_trans hdy hdz⟩
    · exact ih (dedupStep acc r) x hmem

/-- A fold over rows whose keys are already distinct (jointly with the
accumulator) appends them unchanged. -/
theorem dedup_fold_id (l : List Registro) :
    ∀ acc, ((acc ++ l).map tKey).Nodup → l.foldl dedupStep acc = acc ++ l := by
  induction l with
  | nil => intro acc _; simp
  | cons r rest ih =>
    intro acc hnd
    have hnot : tKey r ∉ acc.map tKey := by
      intro hmem
      rw [List.map_append, List.nodup_append] at hnd
      exact hnd.2.2 hmem (by simp)
    have hany : acc.any (fun y => tKey y == tKey r) = false := by
      rw [List.any_eq_false]
      intro y hy hk
      exact hnot (by
        have : tKey y = tKey r := by simpa using hk
        exact this ▸ List.mem_map_of_mem tKey hy)
    have hstep : dedupStep acc r = acc ++ [r] := by
      unfold dedupStep
      rw [if_neg (by simp [hany])]
    rw [List.foldl_cons, hstep, ih (acc ++ [r]) (by simpa using hnd)]
    simp

end Telcel

/-! ## Helper lemmas on the parser pipelines -/

/-- One insertion only adds the inserted element. -/
theorem mem_insertSorted {α : Type} (le : α → α → Bool) (x a : α) :
    ∀ l, a ∈ insertSorted le x l → a = x ∨ a ∈ l := by
  intro l
  induction l with
  | nil => intro h; simpa [insertSorted] using h
  | cons y ys ih =>
    intro h
    unfold insertSorted at h
    by_cases hle : le x y = true
    · rw [if_pos hle] at h
      rcases List.mem_cons.1 h with rfl | h2
      · exact Or.inl rfl
      · exact Or.inr h2
    · rw [if_neg hle] at h
      rcases List.mem_cons.1 h with rfl | h2
      · exact Or.inr (List.mem_cons_self _ _)
      · rcases ih h2 with h3 | h3
        · exact Or.inl h3
        · exact Or.inr (List.mem_cons_of_mem _ h3)

/-- The sorting model only permutes its input. -/
theorem mem_sortBy {α : Type} (le : α → α → Bool) (a : α) :
    ∀ l, a ∈ sortBy le l → a ∈ l := by
  intro l
  induction l with
  | nil => intro h; simp [sortBy] at h
  | cons x xs ih =>
    intro h
    unfold sortBy at h
    rcases mem_insertSorted le x a _ h with rfl | h2
    · exact List.mem_cons_self _ _
    · exact List.mem_cons_of_mem _ (ih h2)

/-- `keepFirstBy` only selects rows of its input. -/
theorem keepFirstByAux_subset {α κ : Type} [DecidableEq κ] (key : α → κ) :
    ∀ n (l : List α), ∀ x ∈ keepFirstByAux key n l, x ∈ l := by
  intro n
  induction n with
  | zero =>
    intro l x hx
    cases l with
    | nil => simp [keepFirstByAux] at hx
    | cons a as => simp [keepFirstByAux] at hx
  | succ n ih =>
    intro l x hx
    cases l with
    | nil => simp [keepFirstByAux] at hx
    | cons a as =>
      simp only [keepFirstByAux] at hx
      rcases List.mem_cons.1 hx with rfl | hx2
      · exact List.mem_cons_self _ _
      · have hmem := ih _ x hx2
        exact List.mem_cons_of_mem a (List.mem_filter.1 hmem).1

theorem keepFirstBy_subset {α κ : Type} [DecidableEq κ] (key : α → κ)
    (l : List α) : ∀ x ∈ keepFirstBy key l, x ∈ l :=
  keepFirstByAux_subset key l.length l

/-- The digit strings produced by `_only_digits` are all digits. -/
theorem mov_only_digits_all (x : Option String) (d : String)
    (h : Movistar.only_digits x = some d) : d.data.all Char.isDigit = true := by
  unfold Movistar.only_digits at h
  cases hx : x with
  | none => rw [hx] at h; exact absurd h (by simp)
  | some s0 =>
    rw [hx] at h
    dsimp only at h
    split at h
    · exact absurd h (by simp)
    · have hd : keepDigits (pyStrip s0) = d := Option.some.inj h
      rw [← hd]
      unfold keepDigits
      refine List.all_eq_true.2 (fun c hc => ?_)
      exact (List.mem_filter.1 hc).2

/-- A cleaned Movistar MSISDN is never the empty string. -/
theorem mov_clean_msisdn_ne_empty (x : Option String) (d : String)
    (h : Movistar.clean_msisdn x = some d) : d ≠ "" := by
  unfold Movistar.clean_msisdn at h
  cases ho : Movistar.only_digits x with
  | none => rw [ho] at h; exact absurd h (by simp)
  | some d0 =>
    rw [ho] at h
    dsimp only at h
    split at h
    · exact absurd h (by simp)
    · next hcond =>
      have hd : d0 = d := Option.some.inj h
      intro hEq
      rw [hd, hEq] at hcond
      exact hcond (by simp)

/-- A cleaned Movistar IMEI has exactly 15 characters, all digits. -/
theorem mov_clean_imei_spec (x : Option String) (d : String)
    (h : Movistar.clean_imei x = some d) :
    d.length = 15 ∧ d.data.all Char.isDigit = true := by
  unfold Movistar.clean_imei at h
  cases ho : Movistar.only_digits x with
  | none => rw [ho] at h; exact absurd h (by simp)
  | some d0 =>
    rw [ho] at h
    dsimp only at h
    split at h
    · exact absurd h (by simp)
    · split at h
      · exact absurd h (by simp)
      · next h1 h2 =>
        have hd : d0 = d := Option.some.inj h
        subst hd
        exact ⟨by omega, mov_only_digits_all x d0 ho⟩

/-- Every row emitted by `_normalize_rows` is built from a cleaned block
row that passed the three discard rules. -/
theorem mov_emitted_from_kept (id : Nat) (rows : List Movistar.MovRow) :
    ∀ r ∈ Movistar.normalize_rows id rows,
      ∃ c, c ∈ (rows.map Movistar.clean).filter Movistar.keep ∧ r = Movistar.build id c := by
  unfold Movistar.normalize_rows
  intro r hr
  obtain ⟨c, hc, hbuild⟩ := List.mem_map.1 hr
  refine ⟨c, ?_, hbuild.symm⟩
  have hc2 := mem_sortBy Movistar.movFinalLe c _ hc
  rcases List.mem_append.1 hc2 with hwc | hwoc
  · have h3 := keepFirstBy_subset Movistar.key1 _ c hwc
    have h4 := mem_sortBy _ c _ h3
    exact (List.mem_filter.1 h4).1
  · have h3 := keepFirstBy_subset Movistar.key2 _ c hwoc
    have h4 := mem_sortBy _ c _ h3
    exact (List.mem_filter.1 h4).1

/-- The reversed scan of `_pick_last_nonzero` over all-numeric parts
picks the first part with a non-zero value. -/
theorem att_pickLoop_numeric (l : List String)
    (h : ∀ p ∈ l, (Att.partVal p).isSome = true) :
    Att.pickLoop l = (l.filter Att.partNonzero).head? := by
  induction l with
  | nil => simp [Att.pickLoop]
  | cons p ps ih =>
    obtain ⟨q, hq⟩ := Option.isSome_iff_exists.1 (h p (List.mem_cons_self p ps))
    have ihps := ih (fun x hx => h x (List.mem_cons_of_mem p hx))
    unfold Att.pickLoop
    rw [hq]
    by_cases hz : q = Frac.ofNat 0
    · have hnz : Att.partNonzero p = false := by
        unfold Att.partNonzero
        rw [hq, hz]
        simp
      rw [List.filter_cons_of_neg (by simp [hnz])]
      simp [hz, ihps]
    · have hnz : Att.partNonzero p = true := by
        unfold Att.partNonzero
        rw [hq]
        simp [hz]
      rw [List.filter_cons_of_pos (by simp [hnz])]
      simp [hz]

/-- `float("")` fails. -/
theorem pyFloat_empty : pyFloat? "" = none := rfl

/-- The forward scan of `_parse_azimuth` returns the first part that
parses as a number. -/
theorem att_azLoop_eq (l : List String) :
    Att.azLoop l = (l.filterMap pyFloat?).head? := by
  induction l with
  | nil => simp [Att.azLoop]
  | cons p ps ih =>
    unfold Att.azLoop
    by_cases hp : p = ""
    · subst hp
      rw [List.filterMap_cons_none pyFloat_empty]
      simp [ih]
    · rw [if_neg hp]
      cases hv : pyFloat? p with
      | none => rw [List.filterMap_cons_none hv]; exact ih
      | some q => rw [List.filterMap_cons_some hv]; simp

/-- A string passing `isdigit` is non-empty. -/
theorem pyIsdigit_ne_empty (s : String) (h : pyIsdigit s = true) : s ≠ "" := by
  intro hEq
  subst hEq
  exact absurd h (by decide)

/-! ## Claim theorems -/

/-- A stored file record used by several concrete instances below. -/
def exArchivo : Archivo :=
  { ruta := "upload/5512345678/archivo.xlsx", estado := "subido",
    fecha_inicio := none, fecha_termino := none, compania := none,
    id_numero_telefonico := none, id_compania_telefonica := some 5 }

/-- A stored canonical row used by several concrete instances below. -/
def exRegistro : Registro :=
  { id_sabanas := 1, numero_a := some "5511111111", numero_b := none,
    id_tipo_registro := 8, fecha_hora := some ⟨2024, 1, 1, 0, 0, 0⟩,
    duracion := 0, latitud := none, longitud := none, azimuth := none,
    latitud_decimal := none, longitud_decimal := none, altitud := Frac.ofNat 0,
    coordenada_objetivo := some false, imei := none, telefono := none }

/-- C10: `mark_error` is unconditional with respect to the stored state:
whatever the record currently holds — including the terminal state
`procesado` — it is overwritten with `estado = "error"` and
`fecha_termino` is set, so this operation does not enforce the monotonic
state machine. -/
theorem mark_error_unconditional (db : ArchStore) (id now : Nat) (r : Archivo)
    (hget : get_archivo_by_id db id = some r) :
    get_archivo_by_id (mark_error db id now) id =
      some { r with estado := "error", fecha_termino := some now } :=
  get_mark_error db id now r hget

/-- C10 witness: a record already in the terminal state `procesado` is
still overwritten to `error`. -/
theorem mark_error_unconditional_witness :
    get_archivo_by_id
        (mark_error [(3, { exArchivo with estado := "procesado", fecha_termino := some 2 })] 3 9) 3 =
      some { exArchivo with estado := "error", fecha_termino := some 9 } := by
  have h := mark_error_unconditional
    [(3, { exArchivo with estado := "procesado", fecha_termino := some 2 })] 3 9
    { exArchivo with estado := "procesado", fecha_termino := some 2 } (by decide)
  exact h.trans (by decide)

/-- C3: `try_mark_estado` is the compare-and-set transition: it reports
success exactly when one row matched (`WHERE id AND estado = expected`);
a matched record is rewritten to the new state with `fecha_inicio` set
exactly when `set_inicio` is requested and `fecha_termino` exactly when
`set_termino` is requested; an unmatched record is untouched; a missing
id changes nothing and reports failure. -/
theorem try_mark_estado_spec (db : ArchStore) (id : Nat) (expected new_state : String)
    (si st : Bool) (now : Nat) :
    ((try_mark_estado db id expected new_state si st now).2 = true ↔
      db.countP (estadoMatch id expected) = 1)
    ∧ (∀ a, get_archivo_by_id db id = some a → a.estado = expected →
        get_archivo_by_id (try_mark_estado db id expected new_state si st now).1 id =
          some { a with
                  estado := new_state,
                  fecha_inicio := if si then some now else a.fecha_inicio,
                  fecha_termino := if st then some now else a.fecha_termino })
    ∧ (∀ a, get_archivo_by_id db id = some a → a.estado ≠ expected →
        get_archivo_by_id (try_mark_estado db id expected new_state si st now).1 id = some a)
    ∧ (get_archivo_by_id db id = none →
        try_mark_estado db id expected new_state si st now = (db, false)) := by
  refine ⟨try_mark_rowcount db id expected new_state si st now,
    fun a hg he => ?_,
    fun a hg he => get_try_mark_unmatched db id expected new_state si st now a hg he,
    try_mark_absent db id expected new_state si st now⟩
  exact get_try_mark_matched db id expected new_state si st now a hg he

/-- C3 witness: the concrete transition `subido → en_cola` on a
single-row table succeeds and rewrites the stored record. -/
theorem try_mark_estado_spec_witness :
    (try_mark_estado [(2, exArchivo)] 2 "subido" "en_cola" false false 5).2 = true
    ∧ get_archivo_by_id (try_mark_estado [(2, exArchivo)] 2 "subido" "en_cola" false false 5).1 2 =
        some { exArchivo with estado := "en_cola" } := by
  have h := try_mark_estado_spec [(2, exArchivo)] 2 "subido" "en_cola" false false 5
  refine ⟨h.1.2 (by decide), ?_⟩
  have h2 := h.2.1 exArchivo (by decide) (by decide)
  exact h2.trans (by decide)

/-- C2 counterexample: the delete and the bulk insert are two separate
transactions. With one previously stored row for file 1 and a batch whose
row fails the year validation (year 3000 against threshold 2026), the
insert fails but the file's rows are gone — the claimed rollback of the
deletion does not happen. -/
theorem delete_insert_not_single_transaction_counterexample :
    (etl_replace_rows [exRegistro] 1
        [{ exRegistro with fecha_hora := some ⟨3000, 1, 1, 0, 0, 0⟩ }] 2026).2 = false
    ∧ ((etl_replace_rows [exRegistro] 1
        [{ exRegistro with fecha_hora := some ⟨3000, 1, 1, 0, 0, 0⟩ }] 2026).1).filter
          (fun r => r.id_sabanas == 1) = []
    ∧ [exRegistro].filter (fun r => r.id_sabanas == 1) ≠ [] := by decide

/-- C2 (amended): `delete_registros_telefonicos_by_archivo` and
`insert_registros_telefonicos_bulk` each run in their own `db.begin()`
transaction; a failure during the bulk insert rolls back only the insert,
leaving the deletion committed, so after a failed insert the store holds
exactly the rows of the other files — the previous rows of this file are
lost. -/
theorem delete_insert_failure_keeps_delete (tbl : List Registro) (id : Nat)
    (rows : List Registro) (ty : Nat)
    (hfail : (etl_replace_rows tbl id rows ty).2 = false) :
    (etl_replace_rows tbl id rows ty).1 = tbl.filter (fun r => r.id_sabanas != id) := by
  unfold etl_replace_rows at hfail ⊢
  dsimp only at hfail ⊢
  cases hins : insert_registros_telefonicos_bulk
      (delete_registros_telefonicos_by_archivo tbl id).1 rows ty with
  | ok pr =>
    obtain ⟨t2, n⟩ := pr
    rw [hins] at hfail
    simp at hfail
  | error e =>
    rfl

/-- C2 witness: the amended statement evaluated on the counterexample
input — after the failed insert the store is empty. -/
theorem delete_insert_failure_keeps_delete_witness :
    (etl_replace_rows [exRegistro] 1
        [{ exRegistro with fecha_hora := some ⟨3000, 1, 1, 0, 0, 0⟩ }] 2026).1 = [] := by
  have h := delete_insert_failure_keeps_delete [exRegistro] 1
    [{ exRegistro with fecha_hora := some ⟨3000, 1, 1, 0, 0, 0⟩ }] 2026 (by decide)
  exact h.trans (by decide)

/-- C9 counterexample: the specification's dispatcher sends carrier id 5
to the Movistar parser, but `run_etl` — the only ETL `process_job_sabana`
invokes — chooses between its inline Telcel-style branch and its generic
fallback only, so a carrier-5 file is never handed to the Movistar
parser. -/
theorem dispatcher_absent_counterexample :
    spec_dispatch_by_carrier_id 5 = some EtlParser.movistar
    ∧ run_etl_parser_used { telcelFrames := some [], genericRows := none } =
        EtlParser.telcelInline
    ∧ run_etl_parser_used { telcelFrames := none, genericRows := none } =
        EtlParser.genericFallback
    ∧ EtlParser.telcelInline ≠ EtlParser.movistar
    ∧ EtlParser.genericFallback ≠ EtlParser.movistar := by decide

/-- C9 (amended): `run_etl` receives no carrier information and applies
no dispatch rules: for every file the parser used is the inline
Telcel-style branch when its header detection finds a table and the
generic fallback otherwise — never the standalone Telcel/Movistar/AT&T/
Altán parser modules, whatever the record's carrier id, carrier name or
filename. -/
theorem run_etl_ignores_carrier (env : EtlEnv) :
    run_etl_parser_used env = EtlParser.telcelInline ∨
      run_etl_parser_used env = EtlParser.genericFallback := by
  obtain ⟨tf, gr⟩ := env
  cases tf with
  | none => exact Or.inr rfl
  | some rows => exact Or.inl rfl

/-- C6 counterexample: the duration normalizer of the Movistar and Altán
parsers does not always return a non-negative integer — the
`int(float(s))` last resort passes a negative numeric string through, so
`"-5"` yields `-5`. -/
theorem duration_negative_counterexample :
    parse_duration_to_seconds (some "-5") = -5
    ∧ parse_duration_to_seconds (some "-5") < 0 := by decide

/-- C6 (amended): the duration normalizer returns `0` for missing, blank
and unparseable input and a non-negative integer for the integer-seconds,
`mm:ss` and `hh:mm:ss` forms; any other input goes through the
`int(float(s))` fallback, which truncates toward zero and keeps the sign,
so a negative floating-point-seconds string yields a negative result. -/
theorem parse_duration_spec :
    parse_duration_to_seconds none = 0
    ∧ (∀ s, pyStrip s = "" → parse_duration_to_seconds (some s) = 0)
    ∧ (∀ s, pyIsdigit (pyStrip s) = true →
        parse_duration_to_seconds (some s) = (digitsVal (pyStrip s) : Int)
        ∧ 0 ≤ parse_duration_to_seconds (some s))
    ∧ (∀ s mm ss, pyIsdigit (pyStrip s) = false → pySplitCh ':' (pyStrip s) = [mm, ss] →
        pyIsdigit mm = true → pyIsdigit ss = true →
        parse_duration_to_seconds (some s) = (digitsVal mm * 60 + digitsVal ss : Int)
        ∧ 0 ≤ parse_duration_to_seconds (some s))
    ∧ (∀ s hh mm ss, pyIsdigit (pyStrip s) = false → pySplitCh ':' (pyStrip s) = [hh, mm, ss] →
        pyIsdigit hh = true → pyIsdigit mm = true → pyIsdigit ss = true →
        parse_duration_to_seconds (some s) =
          (digitsVal hh * 3600 + digitsVal mm * 60 + digitsVal ss : Int)
        ∧ 0 ≤ parse_duration_to_seconds (some s))
    ∧ (∀ s, pyStrip s ≠ "" → pyIsdigit (pyStrip s) = false →
        ¬(((pySplitCh ':' (pyStrip s)).all pyIsdigit = true) ∧
          ((pySplitCh ':' (pyStrip s)).length = 2 ∨ (pySplitCh ':' (pyStrip s)).length = 3)) →
        parse_duration_to_seconds (some s) = durationFloatFallback (pyStrip s))
    ∧ (∀ s, pyFloat? s = none → durationFloatFallback s = 0) := by
  refine ⟨rfl, ?_, ?_, ?_, ?_, ?_, ?_⟩
  · intro s hs
    unfold parse_duration_to_seconds
    dsimp only
    rw [if_pos hs]
  · intro s hd
    have hne := pyIsdigit_ne_empty _ hd
    constructor
    · unfold parse_duration_to_seconds
      dsimp only
      rw [if_neg hne, if_pos hd]
    · unfold parse_duration_to_seconds
      dsimp only
      rw [if_neg hne, if_pos hd]
      positivity
  · intro s mm ss hd hsplit hmm hss
    have hne : pyStrip s ≠ "" := by
      intro h
      rw [h] at hsplit
      have he : pySplitCh ':' "" = [""] := rfl
      rw [he] at hsplit
      exact absurd (congrArg List.length hsplit) (by simp)
    have hall : (pySplitCh ':' (pyStrip s)).all pyIsdigit = true := by
      rw [hsplit]
      simp [hmm, hss]
    constructor
    · unfold parse_duration_to_seconds
      dsimp only
      rw [if_neg hne, if_neg (by simp [hd]), if_pos hall, hsplit]
    · unfold parse_duration_to_seconds
      dsimp only
      rw [if_neg hne, if_neg (by simp [hd]), if_pos hall, hsplit]
      positivity
  · intro s hh mm ss hd hsplit hhh hmm hss
    have hne : pyStrip s ≠ "" := by
      intro h
      rw [h] at hsplit
      have he : pySplitCh ':' "" = [""] := rfl
      rw [he] at hsplit
      exact absurd (congrArg List.length hsplit) (by simp)
    have hall : (pySplitCh ':' (pyStrip s)).all pyIsdigit = true := by
      rw [hsplit]
      simp [hhh, hmm, hss]
    constructor
    · unfold parse_duration_to_seconds
      dsimp only
      rw [if_neg hne, if_neg (by simp [hd]), if_pos hall, hsplit]
    · unfold parse_duration_to_seconds
      dsimp only
      rw [if_neg hne, if_neg (by simp [hd]), if_pos hall, hsplit]
      positivity
  · intro s hne hd hform
    unfold parse_duration_to_seconds
    dsimp only
    rw [if_neg hne, if_neg (by simp [hd])]
    by_cases hall : (pySplitCh ':' (pyStrip s)).all pyIsdigit = true
    · rw [if_pos hall]
      rcases hp : pySplitCh ':' (pyStrip s) with _ | ⟨a, _ | ⟨b, _ | ⟨c, _ | ⟨d, l⟩⟩⟩⟩
      · rfl
      · rfl
      · exact absurd ⟨hall, Or.inl (by rw [hp]; rfl)⟩ hform
      · exact absurd ⟨hall, Or.inr (by rw [hp]; rfl)⟩ hform
      · rfl
    · rw [if_neg hall]
  · intro s hf
    unfold durationFloatFallback
    rw [hf]

/-- C6 witness: the amended statement evaluated on the `mm:ss` form
`"1:30"` (90 seconds, non-negative). -/
theorem parse_duration_spec_witness :
    parse_duration_to_seconds (some "1:30") = 90
    ∧ 0 ≤ parse_duration_to_seconds (some "1:30") := by
  have h := parse_duration_spec.2.2.2.1 "1:30" "1" "30"
    (by decide) (by decide) (by decide) (by decide)
  exact ⟨h.1.trans (by decide), h.2⟩

/-- C7: AT&T list cells. For a coordinate cell of list form whose parts
are all numeric and at least one non-zero, `_pick_last_nonzero` selects
the last part with a non-zero value; for an azimuth cell of list form,
`_parse_azimuth` returns the value of the first part that parses as a
number. -/
theorem att_list_selection_spec :
    (∀ v : String, Att.isListForm (pyStrip v) = true →
      (∀ p ∈ Att.listParts (pyStrip v), (Att.partVal p).isSome = true) →
      (∃ p ∈ Att.listParts (pyStrip v), Att.partNonzero p = true) →
      Att.pick_last_nonzero (some v) =
        ((Att.listParts (pyStrip v)).filter Att.partNonzero).getLast?)
    ∧ (∀ v : String, (charReplace ',' '.' (pyStrip v)) ≠ "" →
        pyLower (charReplace ',' '.' (pyStrip v)) ≠ "nan" →
        Att.isListForm (charReplace ',' '.' (pyStrip v)) = true →
        Att.parse_azimuth (some v) =
          ((Att.listParts (charReplace ',' '.' (pyStrip v))).filterMap pyFloat?).head?) := by
  constructor
  · intro v hl hnum hex
    have hne : pyStrip v ≠ "" := by
      intro h
      rw [h] at hl
      exact absurd hl (by decide)
    unfold Att.pick_last_nonzero
    dsimp only
    rw [if_neg hne, if_pos hl]
    have hrev : ∀ p ∈ (Att.listParts (pyStrip v)).reverse, (Att.partVal p).isSome = true :=
      fun p hp => hnum p (List.mem_reverse.1 hp)
    rw [att_pickLoop_numeric _ hrev, List.filter_reverse, List.head?_reverse]
    obtain ⟨p0, hp0, hnz0⟩ := hex
    have hne2 : (Att.listParts (pyStrip v)).filter Att.partNonzero ≠ [] := by
      intro h
      have hmem : p0 ∈ (Att.listParts (pyStrip v)).filter Att.partNonzero :=
        List.mem_filter.2 ⟨hp0, hnz0⟩
      rw [h] at hmem
      exact absurd hmem (List.not_mem_nil p0)
    cases hlast : ((Att.listParts (pyStrip v)).filter Att.partNonzero).getLast? with
    | none => exact absurd (List.getLast?_eq_none_iff.1 hlast) hne2
    | some c => rfl
  · intro v h1 h2 hl
    unfold Att.parse_azimuth
    dsimp only
    rw [if_neg (by simp [h1, h2]), if_pos hl, att_azLoop_eq]

/-- C7 witness: the S4 scenario — `[19.43:0:19.45]` selects `19.45`,
`[-99.1:0:0]` selects `-99.1`, and `[30:40]` parses to azimuth 30. -/
theorem att_list_selection_spec_witness :
    Att.pick_last_nonzero (some "[19.43:0:19.45]") = some "19.45"
    ∧ Att.pick_last_nonzero (some "[-99.1:0:0]") = some "-99.1"
    ∧ Att.parse_azimuth (some "[30:40]") = some (Frac.ofNat 30) := by
  have h1 := att_list_selection_spec.1 "[19.43:0:19.45]" (by decide) (by decide) (by decide)
  have h2 := att_list_selection_spec.1 "[-99.1:0:0]" (by decide) (by decide) (by decide)
  have h3 := att_list_selection_spec.2 "[30:40]" (by decide) (by decide) (by decide)
  exact ⟨h1.trans (by decide), h2.trans (by decide), h3.trans (by decide)⟩

/-- C8: the Telcel deduplication groups rows by
`(numero_a, fecha_hora, latitud, longitud)`: the surviving keys are
distinct and are exactly the input keys, every surviving row is an input
row, the survivor of each key carries a duration at least that of every
input row with that key, and the pass is idempotent. -/
theorem telcel_dedup_spec (rows : List Registro) :
    ((Telcel.telcel_dedup rows).map Telcel.tKey).Nodup
    ∧ (∀ x ∈ Telcel.telcel_dedup rows, x ∈ rows)
    ∧ (∀ k, k ∈ (Telcel.telcel_dedup rows).map Telcel.tKey ↔ k ∈ rows.map Telcel.tKey)
    ∧ (∀ y ∈ rows, ∃ x ∈ Telcel.telcel_dedup rows,
        Telcel.tKey x = Telcel.tKey y ∧ y.duracion ≤ x.duracion)
    ∧ Telcel.telcel_dedup (Telcel.telcel_dedup rows) = Telcel.telcel_dedup rows := by
  refine ⟨Telcel.dedup_fold_nodup rows [] (by simp), ?_, ?_, ?_, ?_⟩
  · intro x hx
    rcases Telcel.dedup_fold_mem rows [] x hx with h | h
    · exact absurd h (List.not_mem_nil x)
    · exact h
  · intro k
    have h := Telcel.dedup_fold_keys rows [] k
    simpa using h
  · intro y hy
    exact Telcel.dedup_fold_dur rows [] y hy
  · have hnd : ((([] : List Registro) ++ Telcel.telcel_dedup rows).map Telcel.tKey).Nodup := by
      simpa using Telcel.dedup_fold_nodup rows [] (by simp)
    have h := Telcel.dedup_fold_id (Telcel.telcel_dedup rows) [] hnd
    simpa using h

/-- C8 witness: two rows sharing the key and a third with another key —
the survivor of the shared key dominates the smaller duration. -/
theorem telcel_dedup_spec_witness :
    ∃ x ∈ Telcel.telcel_dedup
        [{ exRegistro with duracion := 5 }, { exRegistro with duracion := 9 },
         { exRegistro with numero_a := some "5599999999", duracion := 1 }],
      Telcel.tKey x = Telcel.tKey { exRegistro with duracion := 5 }
      ∧ ({ exRegistro with duracion := 5 } : Registro).duracion ≤ x.duracion := by
  exact (telcel_dedup_spec
    [{ exRegistro with duracion := 5 }, { exRegistro with duracion := 9 },
     { exRegistro with numero_a := some "5599999999", duracion := 1 }]).2.2.2.1
    { exRegistro with duracion := 5 } (by decide)

/-- C4: `accept_job_sabana` raises 404 (`notFound`) when no record
exists, 409 (`conflictEstado`, carrying the current state) when the state
is not `subido`, 409 (`conflictReserva`) when the compare-and-set to
`en_cola` reports no row changed, and otherwise returns the fresh job id
with the record snapshot; `process_job_sabana`, in contrast, returns
silently without modifying anything when the record is missing or its
state is not `en_cola`. -/
theorem accept_process_conflict_spec :
    (∀ (db0 db1 : ArchStore) (id : Nat), get_archivo_by_id db0 id = none →
      accept_job_sabana db0 db1 id = (AcceptResult.notFound, db1))
    ∧ (∀ (db0 db1 : ArchStore) (id : Nat) (r : Archivo),
        get_archivo_by_id db0 id = some r → r.estado ≠ "subido" →
        accept_job_sabana db0 db1 id = (AcceptResult.conflictEstado r.estado, db1))
    ∧ (∀ (db0 db1 : ArchStore) (id : Nat) (r : Archivo),
        get_archivo_by_id db0 id = some r → r.estado = "subido" →
        (try_mark_estado db1 id "subido" "en_cola" false false 0).2 = false →
        accept_job_sabana db0 db1 id =
          (AcceptResult.conflictReserva,
           (try_mark_estado db1 id "subido" "en_cola" false false 0).1))
    ∧ (∀ (db0 db1 : ArchStore) (id : Nat) (r : Archivo),
        get_archivo_by_id db0 id = some r → r.estado = "subido" →
        (try_mark_estado db1 id "subido" "en_cola" false false 0).2 = true →
        accept_job_sabana db0 db1 id =
          (AcceptResult.accepted r,
           (try_mark_estado db1 id "subido" "en_cola" false false 0).1))
    ∧ (∀ (archivos : ArchStore) (registros : List Registro) (id : Nat) (env : JobEnv)
        (now ty : Nat), get_archivo_by_id archivos id = none →
        process_job_sabana archivos registros id env now ty = (archivos, registros))
    ∧ (∀ (archivos : ArchStore) (registros : List Registro) (id : Nat) (env : JobEnv)
        (now ty : Nat) (r : Archivo), get_archivo_by_id archivos id = some r →
        r.estado ≠ "en_cola" →
        process_job_sabana archivos registros id env now ty = (archivos, registros)) := by
  refine ⟨?_, ?_, ?_, ?_, ?_, ?_⟩
  · intro db0 db1 id hget
    unfold accept_job_sabana
    rw [hget]
  · intro db0 db1 id r hget hne
    unfold accept_job_sabana
    rw [hget]
    dsimp only
    rw [if_pos hne]
  · intro db0 db1 id r hget he hcas
    unfold accept_job_sabana
    rw [hget]
    dsimp only
    rw [if_neg (by simp [he]), hcas]
    rfl
  · intro db0 db1 id r hget he hcas
    unfold accept_job_sabana
    rw [hget]
    dsimp only
    rw [if_neg (by simp [he]), hcas]
    rfl
  · intro archivos registros id env now ty hget
    unfold process_job_sabana
    rw [hget]
  · intro archivos registros id env now ty r hget hne
    unfold process_job_sabana
    rw [hget]
    dsimp only
    rw [if_pos hne]

/-- C4 witness: the state-conflict clause evaluated on a record already
in `procesado` — the call answers 409 carrying that state — and the
silent-return clause of the worker on the same store. -/
theorem accept_process_conflict_spec_witness :
    accept_job_sabana [(7, { exArchivo with estado := "procesado" })]
        [(7, { exArchivo with estado := "procesado" })] 7 =
      (AcceptResult.conflictEstado "procesado",
       [(7, { exArchivo with estado := "procesado" })])
    ∧ process_job_sabana [(7, { exArchivo with estado := "procesado" })] [] 7
        { download_ok := true, etl := { telcelFrames := none, genericRows := none } } 1 2026 =
      ([(7, { exArchivo with estado := "procesado" })], []) := by
  constructor
  · have h := accept_process_conflict_spec.2.1
      [(7, { exArchivo with estado := "procesado" })]
      [(7, { exArchivo with estado := "procesado" })] 7
      { exArchivo with estado := "procesado" } (by decide) (by decide)
    exact h.trans (by decide)
  · exact accept_process_conflict_spec.2.2.2.2.2
      [(7, { exArchivo with estado := "procesado" })] [] 7
      { download_ok := true, etl := { telcelFrames := none, genericRows := none } } 1 2026
      { exArchivo with estado := "procesado" } (by decide) (by decide)

/-- C5 counterexample: a Telcel data row with an empty `Numero A` cell,
no parseable date and a 3-digit IMEI passes `_is_meaningful` (which only
checks IMEI, raw coordinates and azimuth) and survives the deduplication
pass, so the canonical record the parser hands to the repository has a
null `numberA`, a null `eventAt` and an `imei` of 3 digits — all three
clauses of the claimed invariant fail. -/
theorem canonical_record_invariant_counterexample :
    (Telcel.telcel_dedup (Telcel.frame_to_rows 1
        [{ numero_a := none, numero_b := none, latitud := some "x", longitud := some "y",
           imei := some "12a3", telefono := none, tipo := none, fa := none, durac := none,
           az := some (Frac.ofNat 30) }])).map Registro.numero_a = [none]
    ∧ (Telcel.telcel_dedup (Telcel.frame_to_rows 1
        [{ numero_a := none, numero_b := none, latitud := some "x", longitud := some "y",
           imei := some "12a3", telefono := none, tipo := none, fa := none, durac := none,
           az := some (Frac.ofNat 30) }])).map Registro.fecha_hora = [none]
    ∧ (Telcel.telcel_dedup (Telcel.frame_to_rows 1
        [{ numero_a := none, numero_b := none, latitud := some "x", longitud := some "y",
           imei := some "12a3", telefono := none, tipo := none, fa := none, durac := none,
           az := some (Frac.ofNat 30) }])).map Registro.imei = [some "123"]
    ∧ ("123" : String).length ≠ 15 := by decide

/-- C5 (amended): the invariant holds for the Movistar parser: every
canonical record emitted by `_normalize_rows` has a non-empty `numero_a`,
a non-null `fecha_hora`, and an `imei` of exactly 15 digits when present
(the Telcel and AT&T parsers truncate the IMEI to at most 15 digits
without enforcing the length, and their filters do not require
`numero_a`; Telcel's filter does not require `fecha_hora` either, and
Altán's does not require it). -/
theorem movistar_record_invariant (id : Nat) (rows : List Movistar.MovRow) :
    ∀ r ∈ Movistar.normalize_rows id rows,
      (∃ s, r.numero_a = some s ∧ s ≠ "")
      ∧ r.fecha_hora.isSome = true
      ∧ (∀ t, r.imei = some t → t.length = 15 ∧ t.data.all Char.isDigit = true) := by
  intro r hr
  obtain ⟨c, hc, hb⟩ := mov_emitted_from_kept id rows r hr
  obtain ⟨m, hm, hcm⟩ := List.mem_map.1 (List.mem_filter.1 hc).1
  have hkeep := (List.mem_filter.1 hc).2
  unfold Movistar.keep at hkeep
  simp only [Bool.and_eq_true] at hkeep
  obtain ⟨⟨ha, hf⟩, himei⟩ := hkeep
  subst hb
  refine ⟨?_, hf, ?_⟩
  · obtain ⟨s, hs⟩ := Option.isSome_iff_exists.1 ha
    refine ⟨s, hs, ?_⟩
    apply mov_clean_msisdn_ne_empty m.numero_a
    rw [← hcm] at hs
    exact hs
  · intro t ht
    have ht2 : c.imei_clean = some t := ht
    rw [← hcm] at ht2
    exact mov_clean_imei_spec m.imei t ht2

/-- C5 witness: the amended invariant evaluated on a concrete one-row
Movistar block (GSM, valid MSISDN, 15-digit IMEI, parsed date). -/
theorem movistar_record_invariant_witness :
    (∃ s, (Movistar.normalize_rows 1
        [{ tipo_cdr := some "GSM", numero_a := some "55-1234-5678",
           numero_b := some "5587654321", tipo_evento := some "ENTRANTE",
           duracion := some "30", imei := some "123456789012345", imsi := none,
           codbts := none, latitud := some "19.43", longitud := some "-99.13",
           fecha_hora := some ⟨2024, 7, 31, 9, 30, 15⟩ }]).headI.numero_a = some s ∧ s ≠ "")
    ∧ (Movistar.normalize_rows 1
        [{ tipo_cdr := some "GSM", numero_a := some "55-1234-5678",
           numero_b := some "5587654321", tipo_evento := some "ENTRANTE",
           duracion := some "30", imei := some "123456789012345", imsi := none,
           codbts := none, latitud := some "19.43", longitud := some "-99.13",
           fecha_hora := some ⟨2024, 7, 31, 9, 30, 15⟩ }]).headI.fecha_hora.isSome = true := by
  have h := movistar_record_invariant 1
    [{ tipo_cdr := some "GSM", numero_a := some "55-1234-5678",
       numero_b := some "5587654321", tipo_evento := some "ENTRANTE",
       duracion := some "30", imei := some "123456789012345", imsi := none,
       codbts := none, latitud := some "19.43", longitud := some "-99.13",
       fecha_hora := some ⟨2024, 7, 31, 9, 30, 15⟩ }]
    (Movistar.normalize_rows 1
      [{ tipo_cdr := some "GSM", numero_a := some "55-1234-5678",
         numero_b := some "5587654321", tipo_evento := some "ENTRANTE",
         duracion := some "30", imei := some "123456789012345", imsi := none,
         codbts := none, latitud := some "19.43", longitud := some "-99.13",
         fecha_hora := some ⟨2024, 7, 31, 9, 30, 15⟩ }]).headI (by decide)
  exact ⟨h.1, h.2.1⟩

/-- C1 counterexample: a queued file whose download succeeds and whose
Telcel-style ETL produces exactly 0 canonical rows ends in `error`, not
`processed` — `run_etl` returns `inserted > 0` and `process_job_sabana`
marks the record `error` on a falsy result. -/
theorem run_etl_zero_rows_marks_error_counterexample :
    ((get_archivo_by_id
        (process_job_sabana [(1, { exArchivo with estado := "en_cola" })] [] 1
          { download_ok := true, etl := { telcelFrames := some [], genericRows := none } }
          7 2026).1 1).map Archivo.estado) = some "error"
    ∧ ((get_archivo_by_id
        (process_job_sabana [(1, { exArchivo with estado := "en_cola" })] [] 1
          { download_ok := true, etl := { telcelFrames := some [], genericRows := none } }
          7 2026).1 1).map Archivo.estado) ≠ some "procesado" := by decide

/-- C1 (amended): for a queued record with a successful download,
`process_job_sabana` treats a 0-row ETL as failure on the Telcel-detected
path — `run_etl` returns `inserted > 0`, i.e. `False`, and the record
transitions `procesando → error` with both timestamps set — while the
generic-fallback path returns `True` unconditionally, so 0 rows there
still end in `procesado`. -/
theorem run_etl_zero_rows_outcome (archivos : ArchStore) (registros : List Registro)
    (id : Nat) (env : JobEnv) (now ty : Nat) (row : Archivo)
    (hnd : (archivos.map Prod.fst).Nodup)
    (hget : get_archivo_by_id archivos id = some row)
    (he : row.estado = "en_cola")
    (hdl : env.download_ok = true) :
    (env.etl.telcelFrames = some [] →
      get_archivo_by_id (process_job_sabana archivos registros id env now ty).1 id =
        some { row with estado := "error", fecha_inicio := some now,
                        fecha_termino := some now })
    ∧ (env.etl.telcelFrames = none → env.etl.genericRows = some [] →
      get_archivo_by_id (process_job_sabana archivos registros id env now ty).1 id =
        some { row with estado := "procesado", fecha_inicio := some now,
                        fecha_termino := some now }) := by
  have hcas : (try_mark_estado archivos id "en_cola" "procesando" true false now).2 = true := by
    rw [try_mark_rowcount]
    rw [countP_estadoMatch archivos id "en_cola" row hget hnd]
    simp [he]
  have hget1 : get_archivo_by_id
      (try_mark_estado archivos id "en_cola" "procesando" true false now).1 id =
      some (marked row "procesando" true false now) :=
    get_try_mark_matched archivos id "en_cola" "procesando" true false now row hget he
  constructor
  · intro htf
    have hrun : run_etl registros id env.etl ty =
        ((delete_registros_telefonicos_by_archivo registros id).1, false) := by
      unfold run_etl
      rw [htf]
      rfl
    unfold process_job_sabana
    rw [hget]
    dsimp only
    rw [if_neg (by simp [he]), hcas, hdl, hrun]
    dsimp only
    exact (get_mark_error _ id now _ hget1).trans (by rfl)
  · intro htf hgen
    have hrun : run_etl registros id env.etl ty =
        ((delete_registros_telefonicos_by_archivo registros id).1, true) := by
      unfold run_etl
      rw [htf]
      unfold run_etl_generic
      rw [hgen]
      rfl
    unfold process_job_sabana
    rw [hget]
    dsimp only
    rw [if_neg (by simp [he]), hcas, hdl, hrun]
    dsimp only
    have h2 := get_try_mark_matched
      (try_mark_estado archivos id "en_cola" "procesando" true false now).1 id
      "procesando" "procesado" false true now (marked row "procesando" true false now)
      hget1 rfl
    exact h2.trans (by rfl)

/-- C1 witness: the amended statement evaluated on the counterexample
store (Telcel path, 0 rows → `error`) and on the generic path
(0 rows → `procesado`). -/
theorem run_etl_zero_rows_outcome_witness :
    get_archivo_by_id
        (process_job_sabana [(1, { exArchivo with estado := "en_cola" })] [] 1
          { download_ok := true, etl := { telcelFrames := some [], genericRows := none } }
          7 2026).1 1 =
      some { exArchivo with estado := "error", fecha_inicio := some 7,
                            fecha_termino := some 7 }
    ∧ get_archivo_by_id
        (process_job_sabana [(1, { exArchivo with estado := "en_cola" })] [] 1
          { download_ok := true, etl := { telcelFrames := none, genericRows := some [] } }
          7 2026).1 1 =
      some { exArchivo with estado := "procesado", fecha_inicio := some 7,
                            fecha_termino := some 7 } := by
  constructor
  · have h := (run_etl_zero_rows_outcome [(1, { exArchivo with estado := "en_cola" })] [] 1
      { download_ok := true, etl := { telcelFrames := some [], genericRows := none } }
      7 2026 { exArchivo with estado := "en_cola" }
      (by decide) (by decide) (by decide) (by decide)).1 (by decide)
    exact h.trans (by decide)
  · have h := (run_etl_zero_rows_outcome [(1, { exArchivo with estado := "en_cola" })] [] 1
      { download_ok := true, etl := { telcelFrames := none, genericRows := some [] } }
      7 2026 { exArchivo with estado := "en_cola" }
      (by decide) (by decide) (by decide) (by decide)).2 (by decide) (by decide)
    exact h.trans (by decide)
